import Mathlib

/-!
# Section allocation of the schedule API (`src/index.js`)

A shallow embedding of the scheduling core of `src/index.js`: the time grid,
the availability calculators, the section locator, the combination selector,
the section creator and the `/create-schedules` loop, followed by the
properties proved about them.

Conventions of the embedding:

* record ids of students, teachers, subjects and classrooms are strings, a
  section id is the number returned by `Date.now()`;
* JavaScript numbers that count things (`time`, `capacity`, `studentCount`)
  are integers;
* the Firebase collections are lists in storage iteration order; the
  `sections` collection is keyed by the section id, and Firebase enumerates
  children in ascending key order;
* `Date.now()` is an input of the functions that read the clock;
* Firebase stores no empty array, so a teacher saved with `subjects: []` is
  read back without the field: `Teacher.subjects` is `none` for such a record,
  and a call that reads `teacher.subjects.includes` on it throws a TypeError,
  modelled as `Except.error JsError.typeError`.
-/

namespace ScheduleAPI

/-! ## Data model -/

/-- A time slot label such as `Sunday 8:00-9:00`. -/
abbrev TimeSlot := String

/-- A subject record: `time` is the number of weekly slots it needs. -/
structure Subject where
  id : String
  name : String
  time : Int
  deriving DecidableEq, Repr

/-- An error thrown by the JavaScript runtime. -/
inductive JsError where
  | typeError
  deriving DecidableEq, Repr

deriving instance DecidableEq for Except

/-- A teacher record with the ids of the subjects they can teach; `subjects`
is `none` when the stored record has no `subjects` field. -/
structure Teacher where
  id : String
  name : String
  academicNumber : String
  subjects : Option (List String)
  deriving DecidableEq, Repr

/-- A classroom record. -/
structure Classroom where
  id : String
  name : String
  capacity : Int
  deriving DecidableEq, Repr

/-- A student record with the ids of the subjects to enroll in. -/
structure Student where
  id : String
  name : String
  academicNumber : String
  subjects : List String
  deriving DecidableEq, Repr

/-- A section record as written by `createNewSection`. -/
structure Section where
  id : Nat
  subjectId : String
  teacherId : String
  classroomId : String
  timeSlots : List TimeSlot
  studentCount : Int
  deriving DecidableEq, Repr

/-- An entry `{ teacher, availableTimeSlots }` of `getTeachersAvailability`. -/
structure TeacherAvailability where
  teacher : Teacher
  availableTimeSlots : List TimeSlot
  deriving DecidableEq, Repr

/-- An entry `{ classroom, availableTimeSlots }` of `getClassroomsAvailability`. -/
structure ClassroomAvailability where
  classroom : Classroom
  availableTimeSlots : List TimeSlot
  deriving DecidableEq, Repr

/-- The object `{ teacher, classroom, timeSlots }` returned by
`selectTeacherClassroomCombination`. -/
structure Combination where
  teacher : Teacher
  classroom : Classroom
  timeSlots : List TimeSlot
  deriving DecidableEq, Repr

/-- One entry of the `schedules` object; `teacher` and `classroom` are the
values of the snapshots read by key, `none` when the key does not exist. -/
structure Assignment where
  student : Student
  subject : Subject
  teacher : Option Teacher
  classroom : Option Classroom
  «section» : Section
  deriving DecidableEq, Repr

/-- The database: one list per collection, in storage iteration order. -/
structure Db where
  students : List Student
  teachers : List Teacher
  subjects : List Subject
  classrooms : List Classroom
  sections : List Section
  deriving DecidableEq, Repr

/-! ## Time grid (`src/index.js` lines 102-110) -/

/-- The `days` array. -/
def days : List String := ["Sunday", "Monday", "Tuesday", "Wednesday", "Thursday"]

/-- The `hours` array. -/
def hours : List String :=
  ["8:00-9:00", "9:00-10:00", "10:00-11:00", "11:00-12:00",
   "12:00-1:00", "1:00-2:00", "2:00-3:00", "3:00-4:00"]

/-- The `timeSlots` array: for each day, for each hour, push `day ++ " " ++ hour`. -/
def timeSlots : List TimeSlot :=
  days.flatMap (fun day => hours.map (fun hour => day ++ " " ++ hour))

/-! ## Store operations used by the scheduling path -/

/-- Insertion of a record into the key-ordered `sections` collection. -/
def insertByKey (s : Section) : List Section → List Section
  | [] => [s]
  | x :: xs => if s.id ≤ x.id then s :: x :: xs else x :: insertByKey s xs

/-- The write `db.ref("sections/" + s.id).set(s)`: the record stored at key
`s.id`, if any, is replaced by `s`. -/
def dbSetSection (sections : List Section) (s : Section) : List Section :=
  insertByKey s (sections.filter (fun x => x.id != s.id))

/-- The write `db.ref("sections/" + id + "/studentCount").set(n)` on a
collection that holds a record at key `id`. -/
def dbSetStudentCount (sections : List Section) (id : Nat) (n : Int) : List Section :=
  sections.map (fun x => if x.id = id then { x with studentCount := n } else x)

/-- The read `classrooms.find(c => c.id === classroomId)`. -/
def findClassroom (classrooms : List Classroom) (classroomId : String) : Option Classroom :=
  classrooms.find? (fun c => c.id == classroomId)

/-! ## Section locator (`findAvailableSection`, lines 153-174) -/

/-- The `for (let sec of subjectSections)` loop of `findAvailableSection`. -/
def findAvailableSectionLoop (classrooms : List Classroom) : List Section → Option Section
  | [] => none
  | sec :: rest =>
    match findClassroom classrooms sec.classroomId with
    | none => findAvailableSectionLoop classrooms rest
    | some classroom =>
      let availableSeats := classroom.capacity - sec.studentCount
      if availableSeats > 0 then some sec
      else findAvailableSectionLoop classrooms rest

/-- The function `findAvailableSection(subject)`. -/
def findAvailableSection (db : Db) (subject : Subject) : Option Section :=
  let subjectSections := db.sections.filter (fun sec => sec.subjectId == subject.id)
  findAvailableSectionLoop db.classrooms subjectSections

/-! ## Combination selector (`selectTeacherClassroomCombination`, lines 177-218) -/

/-- The call `xs.slice(0, e)` of JavaScript for an integer `e`: a negative
`e` counts from the end of the array. -/
def jsSlice0 {α : Type} (xs : List α) (e : Int) : List α :=
  if e < 0 then xs.take ((xs.length : Int) + e).toNat else xs.take e.toNat

/-- The slots of the teacher that the classroom also has, in the teacher's order. -/
def matchingSlots (teacher : TeacherAvailability) (classroom : ClassroomAvailability) :
    List TimeSlot :=
  teacher.availableTimeSlots.filter (fun slot => classroom.availableTimeSlots.contains slot)

/-- The inner `for (let classroom of classrooms)` loop, for a fixed teacher. -/
def selectClassroomLoop (teacher : TeacherAvailability) (numberOfSlotsNeeded : Int) :
    List ClassroomAvailability → Option Combination
  | [] => none
  | classroom :: rest =>
    if classroom.availableTimeSlots.length = 0 then
      selectClassroomLoop teacher numberOfSlotsNeeded rest
    else if ((matchingSlots teacher classroom).length : Int) ≥ numberOfSlotsNeeded then
      some { teacher := teacher.teacher
             classroom := classroom.classroom
             timeSlots := jsSlice0 (matchingSlots teacher classroom) numberOfSlotsNeeded }
    else selectClassroomLoop teacher numberOfSlotsNeeded rest

/-- The outer `for (let teacher of teachers)` loop. -/
def selectTeacherLoop (classrooms : List ClassroomAvailability) (numberOfSlotsNeeded : Int) :
    List TeacherAvailability → Option Combination
  | [] => none
  | teacher :: rest =>
    if teacher.availableTimeSlots.length = 0 then
      selectTeacherLoop classrooms numberOfSlotsNeeded rest
    else
      match selectClassroomLoop teacher numberOfSlotsNeeded classrooms with
      | some combination => some combination
      | none => selectTeacherLoop classrooms numberOfSlotsNeeded rest

/-- The function `selectTeacherClassroomCombination(teachers, classrooms,
numberOfSlotsNeeded)`; `none` is the `null` result. -/
def selectTeacherClassroomCombination (teachers : List TeacherAvailability)
    (classrooms : List ClassroomAvailability) (numberOfSlotsNeeded : Int) :
    Option Combination :=
  if teachers.length = 0 then none
  else if classrooms.length = 0 then none
  else selectTeacherLoop classrooms numberOfSlotsNeeded teachers

/-! ## Availability calculator (lines 222-267) -/

/-- The `unavailableTimeSlots` array built for a teacher: the time slots of
every section with `section.teacherId === teacherId`, pushed in storage order. -/
def teacherUnavailable (sections : List Section) (teacherId : String) : List TimeSlot :=
  (sections.filter (fun s => s.teacherId == teacherId)).flatMap (fun s => s.timeSlots)

/-- The `unavailableTimeSlots` array built for a classroom. -/
def classroomUnavailable (sections : List Section) (classroomId : String) : List TimeSlot :=
  (sections.filter (fun s => s.classroomId == classroomId)).flatMap (fun s => s.timeSlots)

/-- The expression `timeSlots.filter(slot => !unavailableTimeSlots.includes(slot))`. -/
def freeSlots (unavailableTimeSlots : List TimeSlot) : List TimeSlot :=
  timeSlots.filter (fun slot => !unavailableTimeSlots.contains slot)

/-- The callback of `teachers.map` in `getTeachersAvailability`: reading
`teacher.subjects.includes` throws a TypeError when the record has no
`subjects`; a teacher who does not teach the subject gives `null`. -/
def teacherAvailability (sections : List Section) (subject : Subject) (teacher : Teacher) :
    Except JsError (Option TeacherAvailability) :=
  match teacher.subjects with
  | none => .error .typeError
  | some subjects =>
    if !subjects.contains subject.id then .ok none
    else .ok (some { teacher := teacher
                     availableTimeSlots := freeSlots (teacherUnavailable sections teacher.id) })

/-- The call `Promise.all(teachers.map(callback))`: the results of the
callbacks in the order of the teachers, or the error of the first callback
that threw. -/
def teachersAvailabilityAll (sections : List Section) (subject : Subject) :
    List Teacher → Except JsError (List (Option TeacherAvailability))
  | [] => .ok []
  | teacher :: rest =>
    match teacherAvailability sections subject teacher with
    | .error e => .error e
    | .ok result =>
      match teachersAvailabilityAll sections subject rest with
      | .error e => .error e
      | .ok results => .ok (result :: results)

/-- The function `getTeachersAvailability(subject)`: it throws when a callback
does; otherwise the `null` results are dropped by `filter(Boolean)`. -/
def getTeachersAvailability (db : Db) (subject : Subject) :
    Except JsError (List TeacherAvailability) :=
  match teachersAvailabilityAll db.sections subject db.teachers with
  | .error e => .error e
  | .ok teachersAvailability => .ok (teachersAvailability.filterMap id)

/-- The function `getClassroomsAvailability()`. -/
def getClassroomsAvailability (db : Db) : List ClassroomAvailability :=
  (db.classrooms.map (fun classroom =>
      ({ classroom := classroom
         availableTimeSlots := freeSlots (classroomUnavailable db.sections classroom.id) }
        : ClassroomAvailability))).filter
    (fun e => e.availableTimeSlots.length > 0)

/-! ## Section creator (`createNewSection`, lines 271-300) -/

/-- The function `createNewSection(subject)`; `now` is the value of
`Date.now()`. It returns the database after the call and the new section, or
the error thrown by `getTeachersAvailability`, before anything is written. -/
def createNewSection (db : Db) (now : Nat) (subject : Subject) :
    Except JsError (Db × Option Section) :=
  match getTeachersAvailability db subject with
  | .error e => .error e
  | .ok teachersAvailability =>
    let classroomsAvailability := getClassroomsAvailability db
    if teachersAvailability.length = 0 ∨ classroomsAvailability.length = 0 then .ok (db, none)
    else
      match selectTeacherClassroomCombination teachersAvailability classroomsAvailability
          subject.time with
      | none => .ok (db, none)
      | some teacherClassroomCombination =>
        let newSection : Section :=
          { id := now
            subjectId := subject.id
            teacherId := teacherClassroomCombination.teacher.id
            classroomId := teacherClassroomCombination.classroom.id
            timeSlots := teacherClassroomCombination.timeSlots
            studentCount := 0 }
        .ok ({ db with sections := dbSetSection db.sections newSection }, some newSection)

/-! ## Schedule builder (`/create-schedules`, lines 303-354) -/

/-- The `schedules` object: its keys with their values, in insertion order. -/
abbrev Schedules := List (String × Assignment)

/-- The key of an assignment in the `schedules` object. -/
def scheduleKey (studentId subjectId : String) : String :=
  studentId ++ "-" ++ subjectId

/-- The assignment `schedules[key] = value` on a JavaScript object. -/
def setSchedule (schedules : Schedules) (key : String) (value : Assignment) : Schedules :=
  if schedules.any (fun e => e.1 == key) then
    schedules.map (fun e => if e.1 = key then (key, value) else e)
  else schedules ++ [(key, value)]

/-- Lines 319-323: `findAvailableSection`, and `createNewSection` when it
finds nothing. -/
def findOrCreateSection (db : Db) (now : Nat) (subject : Subject) :
    Except JsError (Db × Option Section) :=
  match findAvailableSection db subject with
  | some s => .ok (db, some s)
  | none => createNewSection db now subject

/-- The state of a run: the database and the `schedules` object. -/
abbrev RunState := Db × Schedules

/-- One iteration of the inner loop, for `student` and `subjectId`; `subjects`
is the list read at the start of the run and `now` the value of `Date.now()`
during the iteration. The iteration throws when `createNewSection` does. -/
def scheduleStep (subjects : List Subject) (now : Nat) (st : RunState)
    (student : Student) (subjectId : String) : Except JsError RunState :=
  match subjects.find? (fun sub => sub.id == subjectId) with
  | none => .ok st
  | some subject =>
    match findOrCreateSection st.1 now subject with
    | .error e => .error e
    | .ok (db1, none) => .ok (db1, st.2)
    | .ok (db1, some sec) =>
      let teacher := db1.teachers.find? (fun t => t.id == sec.teacherId)
      let classroom := db1.classrooms.find? (fun c => c.id == sec.classroomId)
      let schedules := setSchedule st.2 (scheduleKey student.id subject.id)
        { student := student, subject := subject, teacher := teacher,
          classroom := classroom, «section» := sec }
      .ok ({ db1 with
               sections := dbSetStudentCount db1.sections sec.id (sec.studentCount + 1) },
        schedules)

/-- The (student, subject id) pairs in the order the two nested loops visit them. -/
def enrollments (students : List Student) : List (Student × String) :=
  students.flatMap (fun student => student.subjects.map (fun subjectId => (student, subjectId)))

/-- The nested loops over the pairs that remain; `clock k` is the value of
`Date.now()` during iteration number `k` of the run. The result is the state
in which the loops end, and the error when an iteration threw: the `catch` of
the handler then ends the run, and the database stays as that iteration found it. -/
def scheduleLoop (subjects : List Subject) (clock : Nat → Nat) :
    Nat → List (Student × String) → RunState → RunState × Option JsError
  | _, [], st => (st, none)
  | k, p :: rest, st =>
    match scheduleStep subjects (clock k) st p.1 p.2 with
    | .error e => (st, some e)
    | .ok st1 => scheduleLoop subjects clock (k + 1) rest st1

/-- The handler of `/create-schedules`: the final database with the
`schedules` object of the response, and the error caught when the response is
the status 500. -/
def createSchedules (db : Db) (clock : Nat → Nat) : RunState × Option JsError :=
  scheduleLoop db.subjects clock 0 (enrollments db.students) (db, [])

/-! ## Reference definitions that follow the specification -/

/-- The specification's `matching(t, c)`: the entries of the teacher's free
slots that also occur in the classroom's free slots, in the teacher's order. -/
def referenceMatching (t : TeacherAvailability) (c : ClassroomAvailability) : List TimeSlot :=
  t.availableTimeSlots.filter (fun slot => decide (slot ∈ c.availableTimeSlots))

/-- The (teacher, classroom) pairs in teacher-major, classroom-minor input order. -/
def referencePairs (teachers : List TeacherAvailability)
    (classrooms : List ClassroomAvailability) :
    List (TeacherAvailability × ClassroomAvailability) :=
  teachers.flatMap (fun t => classrooms.map (fun c => (t, c)))

/-- The specification's first-fit search: the first pair, in teacher-major and
classroom-minor order, whose matching has at least `slotsNeeded` entries,
together with the first `slotsNeeded` entries of that matching. -/
def firstFitReference (teachers : List TeacherAvailability)
    (classrooms : List ClassroomAvailability) (slotsNeeded : Int) : Option Combination :=
  ((referencePairs teachers classrooms).find?
      (fun p => decide (slotsNeeded ≤ ((referenceMatching p.1 p.2).length : Int)))).map
    (fun p => { teacher := p.1.teacher
                classroom := p.2.classroom
                timeSlots := (referenceMatching p.1 p.2).take slotsNeeded.toNat })

/-- The specification's test for an open seat: the classroom record of the
section exists and `capacity - studentCount > 0`. -/
def hasOpenSeat (classrooms : List Classroom) (sec : Section) : Bool :=
  match findClassroom classrooms sec.classroomId with
  | some classroom => decide (classroom.capacity - sec.studentCount > 0)
  | none => false

/-- The specification's open section of a subject: a section of that subject
with an open seat. -/
def isOpenSectionOf (classrooms : List Classroom) (subject : Subject) (sec : Section) : Bool :=
  sec.subjectId == subject.id && hasOpenSeat classrooms sec

/-- What a free-slot list computed from an array of busy slots satisfies
whatever the array holds: no common slot, grid order, every grid slot free or
busy, and free together with busy exactly the grid once the busy slots are
grid slots. -/
def ComplementOfBusy (busy free : List TimeSlot) : Prop :=
  (∀ slot ∈ free, slot ∉ busy) ∧
  free.Sublist timeSlots ∧
  (∀ slot ∈ timeSlots, slot ∈ free ∨ slot ∈ busy) ∧
  ((∀ slot ∈ busy, slot ∈ timeSlots) → ∀ slot, (slot ∈ free ∨ slot ∈ busy) ↔ slot ∈ timeSlots)

/-- The specification's busy slots of a teacher: the slots in the timeSlots
of some stored section that references the teacher. -/
def teacherBusy (sections : List Section) (teacherId : String) (slot : TimeSlot) : Prop :=
  ∃ s ∈ sections, s.teacherId = teacherId ∧ slot ∈ s.timeSlots

/-- The specification's busy slots of a classroom. -/
def classroomBusy (sections : List Section) (classroomId : String) (slot : TimeSlot) : Prop :=
  ∃ s ∈ sections, s.classroomId = classroomId ∧ slot ∈ s.timeSlots

/-- The specification's complement-correctness of a free-slot list: free and
busy have no slot in common, free together with busy is exactly the grid, and
free is listed in Time Grid order. -/
def ComplementCorrect (busy : TimeSlot → Prop) (free : List TimeSlot) : Prop :=
  (∀ slot ∈ free, ¬ busy slot) ∧
  (∀ slot, (slot ∈ free ∨ busy slot) ↔ slot ∈ timeSlots) ∧
  free.Sublist timeSlots

/-- The specification's invariant of stored sections on their time slots:
they are drawn only from the grid. -/
def OnGrid (sections : List Section) : Prop :=
  ∀ s ∈ sections, ∀ slot ∈ s.timeSlots, slot ∈ timeSlots

/-- No two sections of one teacher share a time slot, and no two sections of
one classroom share a time slot. -/
def NoDoubleBooking (sections : List Section) : Prop :=
  sections.Pairwise (fun a b => a.teacherId = b.teacherId →
      ∀ slot ∈ a.timeSlots, slot ∉ b.timeSlots) ∧
  sections.Pairwise (fun a b => a.classroomId = b.classroomId →
      ∀ slot ∈ a.timeSlots, slot ∉ b.timeSlots)

/-- Every stored section has a studentCount that is at most the capacity of
the classroom record it references. -/
def CapacityRespected (classrooms : List Classroom) (sections : List Section) : Prop :=
  ∀ s ∈ sections, ∀ classroom, findClassroom classrooms s.classroomId = some classroom →
    s.studentCount ≤ classroom.capacity

/-- The section ids of the collection are pairwise distinct, as the keys of a
stored collection are. -/
def UniqueIds (sections : List Section) : Prop :=
  (sections.map (fun s => s.id)).Nodup

/-- The read `schedules[key]`. -/
def getSchedule (schedules : Schedules) (key : String) : Option Assignment :=
  (schedules.find? (fun e => e.1 == key)).map (fun e => e.2)

/-- The id holds no `-`, the character that `scheduleKey` puts between the
student id and the subject id. -/
def NoDash (id : String) : Prop := '-' ∉ id.data

/-- The specification's entry of the Time Grid for day index `d` and hour
index `h`: `days[d]`, a space, `hours[h]`; `none` when an index is out of range. -/
def gridLabel (d h : Nat) : Option TimeSlot :=
  (days[d]?).bind (fun day => (hours[h]?).map (fun hour => day ++ " " ++ hour))

/-! ## Example data -/

/-- A teacher who can teach the subject `math`. -/
def exTeacher : Teacher :=
  { id := "t1", name := "Amal", academicNumber := "T-100", subjects := some ["math"] }

/-- A classroom with two seats. -/
def exClassroom : Classroom := { id := "c1", name := "Room 1", capacity := 2 }

/-- Three slots of the grid. -/
def exSlots : List TimeSlot := ["Sunday 8:00-9:00", "Sunday 9:00-10:00", "Sunday 10:00-11:00"]

/-- The teacher, free on the three slots. -/
def exTeacherAvailability : TeacherAvailability :=
  { teacher := exTeacher, availableTimeSlots := exSlots }

/-- The classroom, free on the three slots. -/
def exClassroomAvailability : ClassroomAvailability :=
  { classroom := exClassroom, availableTimeSlots := exSlots }

/-- The subject `math`, two slots a week. -/
def exSubject : Subject := { id := "math", name := "Mathematics", time := 2 }

/-- A student enrolled in `math`. -/
def exStudent : Student :=
  { id := "s1", name := "Badr", academicNumber := "S-1", subjects := ["math"] }

/-- A second student enrolled in `math`. -/
def exStudent2 : Student :=
  { id := "s2", name := "Dana", academicNumber := "S-2", subjects := ["math"] }

/-- A stored section of `math` with one student, on the first two example slots. -/
def exSection : Section :=
  { id := 1000, subjectId := "math", teacherId := "t1", classroomId := "c1",
    timeSlots := ["Sunday 8:00-9:00", "Sunday 9:00-10:00"], studentCount := 1 }

/-- A database with no section. -/
def exDbEmpty : Db :=
  { students := [exStudent, exStudent2], teachers := [exTeacher], subjects := [exSubject],
    classrooms := [exClassroom], sections := [] }

/-- A database with the one example section. -/
def exDb : Db := { exDbEmpty with sections := [exSection] }

/-- A subject that no example teacher teaches. -/
def exPhysics : Subject := { id := "phys", name := "Physics", time := 1 }

/-- A student enrolled in `phys` and then in `math`. -/
def exStudent3 : Student :=
  { id := "s3", name := "Hadi", academicNumber := "S-3", subjects := ["phys", "math"] }

/-- The section that `createNewSection` builds for `math` on the empty example
database at clock value 1000. -/
def exNewSection : Section :=
  { id := 1000, subjectId := "math", teacherId := "t1", classroomId := "c1",
    timeSlots := ["Sunday 8:00-9:00", "Sunday 9:00-10:00"], studentCount := 0 }

/-- The section that `createNewSection` builds for `math` on the example
database at clock value 2000. -/
def exNextSection : Section :=
  { id := 2000, subjectId := "math", teacherId := "t1", classroomId := "c1",
    timeSlots := ["Sunday 10:00-11:00", "Sunday 11:00-12:00"], studentCount := 0 }

/-- The state of the run on the empty example database after the first
student has been enrolled in `math` at clock value 1000. -/
def exStateAfterFirst : RunState :=
  ({ exDbEmpty with sections := [{ exNewSection with studentCount := 1 }] },
   [("s1-math", { student := exStudent, subject := exSubject, teacher := some exTeacher,
                  classroom := some exClassroom, «section» := exNewSection })])

/-- The state after the second student has been enrolled in `math` as well. -/
def exStateAfterSecond : RunState :=
  ({ exDbEmpty with sections := [{ exNewSection with studentCount := 2 }] },
   [("s1-math", { student := exStudent, subject := exSubject, teacher := some exTeacher,
                  classroom := some exClassroom, «section» := exNewSection }),
    ("s2-math", { student := exStudent2, subject := exSubject, teacher := some exTeacher,
                  classroom := some exClassroom,
                  «section» := { exNewSection with studentCount := 1 } })])

/-- A teacher saved with `subjects: []`: the stored record has no `subjects`. -/
def exTeacherNoSubjects : Teacher :=
  { id := "t2", name := "Omar", academicNumber := "T-200", subjects := none }

/-- A database with no section, the example teacher, the teacher without
`subjects`, and a student enrolled in `phys` and then in `math`. -/
def exDbNoSubjects : Db :=
  { students := [exStudent3], teachers := [exTeacher, exTeacherNoSubjects],
    subjects := [exPhysics, exSubject], classrooms := [exClassroom], sections := [] }

/-- A database with no section whose only classroom has capacity 0. -/
def exDbZeroCapacity : Db :=
  { students := [exStudent], teachers := [exTeacher], subjects := [exSubject],
    classrooms := [{ id := "c0", name := "Closed room", capacity := 0 }], sections := [] }

/-! ## Properties of the combination selector -/

theorem jsSlice0_sublist {α : Type} (xs : List α) (e : Int) : (jsSlice0 xs e).Sublist xs := by
  unfold jsSlice0
  split <;> exact List.take_sublist _ _

theorem jsSlice0_of_nonneg {α : Type} (xs : List α) (e : Int) (h : 0 ≤ e) :
    jsSlice0 xs e = xs.take e.toNat := by
  unfold jsSlice0
  rw [if_neg (by omega)]

theorem jsSlice0_length_ge {α : Type} (xs : List α) (e : Int) (h : e ≤ (xs.length : Int)) :
    e ≤ ((jsSlice0 xs e).length : Int) := by
  unfold jsSlice0
  split
  · omega
  · rw [List.length_take]
    omega

theorem matchingSlots_eq_reference (t : TeacherAvailability) (c : ClassroomAvailability) :
    matchingSlots t c = referenceMatching t c := by
  unfold matchingSlots referenceMatching
  congr 1
  funext slot
  simp

theorem mem_matchingSlots {t : TeacherAvailability} {c : ClassroomAvailability} {slot : TimeSlot} :
    slot ∈ matchingSlots t c ↔ slot ∈ t.availableTimeSlots ∧ slot ∈ c.availableTimeSlots := by
  simp [matchingSlots]

/-- What the inner loop returns comes from one of the classrooms it scans. -/
theorem selectClassroomLoop_some {t : TeacherAvailability} {n : Int}
    {cs : List ClassroomAvailability} {r : Combination}
    (h : selectClassroomLoop t n cs = some r) :
    ∃ c ∈ cs, n ≤ ((matchingSlots t c).length : Int) ∧
      r = { teacher := t.teacher, classroom := c.classroom,
            timeSlots := jsSlice0 (matchingSlots t c) n } := by
  induction cs with
  | nil => simp [selectClassroomLoop] at h
  | cons c rest ih =>
    unfold selectClassroomLoop at h
    split at h
    · obtain ⟨c', hc', hr⟩ := ih h
      exact ⟨c', List.mem_cons_of_mem _ hc', hr⟩
    · split at h
      · rename_i hlen
        refine ⟨c, List.mem_cons_self _ _, hlen, ?_⟩
        simpa using h.symm
      · obtain ⟨c', hc', hr⟩ := ih h
        exact ⟨c', List.mem_cons_of_mem _ hc', hr⟩

/-- What the outer loop returns comes from one teacher and one classroom of its inputs. -/
theorem selectTeacherLoop_some {cs : List ClassroomAvailability} {n : Int}
    {ts : List TeacherAvailability} {r : Combination}
    (h : selectTeacherLoop cs n ts = some r) :
    ∃ t ∈ ts, ∃ c ∈ cs, n ≤ ((matchingSlots t c).length : Int) ∧
      r = { teacher := t.teacher, classroom := c.classroom,
            timeSlots := jsSlice0 (matchingSlots t c) n } := by
  induction ts with
  | nil => simp [selectTeacherLoop] at h
  | cons t rest ih =>
    unfold selectTeacherLoop at h
    split at h
    · obtain ⟨t', ht', hr⟩ := ih h
      exact ⟨t', List.mem_cons_of_mem _ ht', hr⟩
    · split at h
      · rename_i comb hcomb
        obtain ⟨c, hc, hlen, hr⟩ := selectClassroomLoop_some hcomb
        refine ⟨t, List.mem_cons_self _ _, c, hc, hlen, ?_⟩
        rw [← hr]
        simpa using h.symm
      · obtain ⟨t', ht', hr⟩ := ih h
        exact ⟨t', List.mem_cons_of_mem _ ht', hr⟩

/-- A result of the selector is built from one entry of each input list. -/
theorem selectTeacherClassroomCombination_some {ts : List TeacherAvailability}
    {cs : List ClassroomAvailability} {n : Int} {r : Combination}
    (h : selectTeacherClassroomCombination ts cs n = some r) :
    ∃ t ∈ ts, ∃ c ∈ cs, n ≤ ((matchingSlots t c).length : Int) ∧
      r = { teacher := t.teacher, classroom := c.classroom,
            timeSlots := jsSlice0 (matchingSlots t c) n } := by
  unfold selectTeacherClassroomCombination at h
  split at h
  · simp at h
  · split at h
    · simp at h
    · exact selectTeacherLoop_some h

/-- For a positive slot count the inner loop is a first-match search over the classrooms. -/
theorem selectClassroomLoop_eq_find (t : TeacherAvailability) (n : Int) (hn : 1 ≤ n)
    (cs : List ClassroomAvailability) :
    selectClassroomLoop t n cs =
      (cs.find? (fun c => decide (n ≤ ((referenceMatching t c).length : Int)))).map
        (fun c => { teacher := t.teacher, classroom := c.classroom,
                    timeSlots := (referenceMatching t c).take n.toNat }) := by
  induction cs with
  | nil => simp [selectClassroomLoop]
  | cons c rest ih =>
    unfold selectClassroomLoop
    rw [matchingSlots_eq_reference, List.find?_cons]
    by_cases hc : c.availableTimeSlots.length = 0
    · have hnil : referenceMatching t c = [] := by
        have : c.availableTimeSlots = [] := List.length_eq_zero.mp hc
        simp [referenceMatching, this]
      rw [if_pos hc, ih, hnil]
      have : ¬ n ≤ 0 := by omega
      simp [this]
    · rw [if_neg hc]
      by_cases hlen : n ≤ ((referenceMatching t c).length : Int)
      · rw [if_pos hlen, jsSlice0_of_nonneg _ _ (by omega)]
        simp [hlen]
      · rw [if_neg hlen, ih]
        simp [hlen]

theorem referencePairs_nil_right (ts : List TeacherAvailability) : referencePairs ts [] = [] := by
  induction ts with
  | nil => rfl
  | cons t rest ih =>
    have : referencePairs (t :: rest) [] = referencePairs rest [] := by simp [referencePairs]
    rw [this, ih]

/-- For a positive slot count the outer loop is the first-fit search over all pairs. -/
theorem selectTeacherLoop_eq_reference (cs : List ClassroomAvailability) (n : Int)
    (hn : 1 ≤ n) (ts : List TeacherAvailability) :
    selectTeacherLoop cs n ts = firstFitReference ts cs n := by
  induction ts with
  | nil => simp [selectTeacherLoop, firstFitReference, referencePairs]
  | cons t rest ih =>
    have hpairs : referencePairs (t :: rest) cs
        = cs.map (fun c => (t, c)) ++ referencePairs rest cs := by
      simp [referencePairs]
    have hinner := selectClassroomLoop_eq_find t n hn cs
    unfold selectTeacherLoop
    unfold firstFitReference at ih ⊢
    rw [hpairs, List.find?_append, List.find?_map]
    by_cases ht : t.availableTimeSlots.length = 0
    · rw [if_pos ht, ih]
      have hnil : ∀ c : ClassroomAvailability, referenceMatching t c = [] := by
        intro c
        have : t.availableTimeSlots = [] := List.length_eq_zero.mp ht
        simp [referenceMatching, this]
      have hnone : cs.find? ((fun p : TeacherAvailability × ClassroomAvailability =>
          decide (n ≤ ((referenceMatching p.1 p.2).length : Int))) ∘ fun c => (t, c)) = none := by
        rw [List.find?_eq_none]
        intro c _
        have : ¬ n ≤ 0 := by omega
        simp [hnil c, this]
      rw [hnone]
      simp
    · rw [if_neg ht, hinner]
      cases hfind : cs.find? (fun c => decide (n ≤ ((referenceMatching t c).length : Int))) with
      | none =>
        have hnone : cs.find? ((fun p : TeacherAvailability × ClassroomAvailability =>
            decide (n ≤ ((referenceMatching p.1 p.2).length : Int))) ∘ fun c => (t, c)) = none :=
          hfind
        rw [hnone]
        simpa using ih
      | some c =>
        have hsome : cs.find? ((fun p : TeacherAvailability × ClassroomAvailability =>
            decide (n ≤ ((referenceMatching p.1 p.2).length : Int))) ∘ fun c => (t, c)) = some c :=
          hfind
        rw [hsome]
        simp

/-- C3: for every teacher-availability list, classroom-availability list and
slotsNeeded at least 1, `selectTeacherClassroomCombination` returns exactly what
the first-fit reference search returns: the first pair in teacher-major,
classroom-minor order whose matching has at least slotsNeeded entries, with the
first slotsNeeded entries of that matching, and none when there is no such pair. -/
theorem selectTeacherClassroomCombination_eq_firstFit (teachers : List TeacherAvailability)
    (classrooms : List ClassroomAvailability) (slotsNeeded : Int) (hn : 1 ≤ slotsNeeded) :
    selectTeacherClassroomCombination teachers classrooms slotsNeeded
      = firstFitReference teachers classrooms slotsNeeded := by
  unfold selectTeacherClassroomCombination
  by_cases ht : teachers.length = 0
  · have : teachers = [] := List.length_eq_zero.mp ht
    simp [this, firstFitReference, referencePairs]
  · rw [if_neg ht]
    by_cases hc : classrooms.length = 0
    · have : classrooms = [] := List.length_eq_zero.mp hc
      simp [this, firstFitReference, referencePairs_nil_right]
    · rw [if_neg hc]
      exact selectTeacherLoop_eq_reference classrooms slotsNeeded hn teachers

/-- C4: whenever `selectTeacherClassroomCombination` returns a combination, its
timeSlots has at least slotsNeeded entries, and the returned teacher and
classroom are those of an entry of each input list whose free slots contain
every entry of timeSlots. -/
theorem selectTeacherClassroomCombination_sound (teachers : List TeacherAvailability)
    (classrooms : List ClassroomAvailability) (slotsNeeded : Int) (r : Combination)
    (h : selectTeacherClassroomCombination teachers classrooms slotsNeeded = some r) :
    slotsNeeded ≤ (r.timeSlots.length : Int) ∧
    ∃ t ∈ teachers, ∃ c ∈ classrooms, t.teacher = r.teacher ∧ c.classroom = r.classroom ∧
      ∀ slot ∈ r.timeSlots, slot ∈ t.availableTimeSlots ∧ slot ∈ c.availableTimeSlots := by
  obtain ⟨t, ht, c, hc, hlen, hr⟩ := selectTeacherClassroomCombination_some h
  subst hr
  refine ⟨jsSlice0_length_ge _ _ hlen, t, ht, c, hc, rfl, rfl, ?_⟩
  intro slot hslot
  exact mem_matchingSlots.mp ((jsSlice0_sublist _ _).subset hslot)

/-- Scenario A of the specification as an instance of C3: one teacher and one
classroom free on the same three slots, two slots needed. -/
theorem selectTeacherClassroomCombination_eq_firstFit_witness :
    (1 : Int) ≤ 2 ∧
    selectTeacherClassroomCombination [exTeacherAvailability] [exClassroomAvailability] 2
      = firstFitReference [exTeacherAvailability] [exClassroomAvailability] 2 ∧
    firstFitReference [exTeacherAvailability] [exClassroomAvailability] 2
      = some { teacher := exTeacher, classroom := exClassroom,
               timeSlots := ["Sunday 8:00-9:00", "Sunday 9:00-10:00"] } :=
  ⟨by decide,
   selectTeacherClassroomCombination_eq_firstFit [exTeacherAvailability]
     [exClassroomAvailability] 2 (by decide),
   by decide⟩

/-- An instance of C4: the combination selected for three needed slots. -/
theorem selectTeacherClassroomCombination_sound_witness :
    selectTeacherClassroomCombination [exTeacherAvailability] [exClassroomAvailability] 3
      = some { teacher := exTeacher, classroom := exClassroom, timeSlots := exSlots } ∧
    (3 : Int) ≤ (exSlots.length : Int) ∧
    ∃ t ∈ [exTeacherAvailability], ∃ c ∈ [exClassroomAvailability],
      t.teacher = exTeacher ∧ c.classroom = exClassroom ∧
      ∀ slot ∈ exSlots, slot ∈ t.availableTimeSlots ∧ slot ∈ c.availableTimeSlots :=
  ⟨by decide,
   selectTeacherClassroomCombination_sound [exTeacherAvailability] [exClassroomAvailability] 3
     { teacher := exTeacher, classroom := exClassroom, timeSlots := exSlots } (by decide)⟩

/-- For a slot count below 1 the inner loop stops at the first classroom with free slots. -/
theorem selectClassroomLoop_of_nonpos (t : TeacherAvailability) (n : Int) (hn : n < 1)
    (cs : List ClassroomAvailability) :
    selectClassroomLoop t n cs =
      (cs.find? (fun c => decide (c.availableTimeSlots.length ≠ 0))).map
        (fun c => { teacher := t.teacher, classroom := c.classroom,
                    timeSlots := jsSlice0 (matchingSlots t c) n }) := by
  induction cs with
  | nil => simp [selectClassroomLoop]
  | cons c rest ih =>
    unfold selectClassroomLoop
    rw [List.find?_cons]
    by_cases hc : c.availableTimeSlots.length = 0
    · rw [if_pos hc, ih]
      simp [hc]
    · have hlen : ((matchingSlots t c).length : Int) ≥ n := by omega
      rw [if_neg hc, if_pos hlen]
      simp [hc]

/-- For a slot count below 1 the outer loop stops at the first teacher with free
slots, provided some classroom has free slots. -/
theorem selectTeacherLoop_of_nonpos (cs : List ClassroomAvailability) (n : Int) (hn : n < 1)
    (ts : List TeacherAvailability) :
    selectTeacherLoop cs n ts =
      match ts.find? (fun t => decide (t.availableTimeSlots.length ≠ 0)),
            cs.find? (fun c => decide (c.availableTimeSlots.length ≠ 0)) with
      | some t, some c =>
        some { teacher := t.teacher, classroom := c.classroom,
               timeSlots := jsSlice0 (matchingSlots t c) n }
      | _, _ => none := by
  induction ts with
  | nil => simp [selectTeacherLoop]
  | cons t rest ih =>
    unfold selectTeacherLoop
    rw [List.find?_cons]
    by_cases ht : t.availableTimeSlots.length = 0
    · rw [if_pos ht, ih]
      simp [ht]
    · rw [if_neg ht, selectClassroomLoop_of_nonpos t n hn cs]
      cases hfind : cs.find? (fun c => decide (c.availableTimeSlots.length ≠ 0)) with
      | none =>
        rw [ih, hfind]
        simp [ht]
      | some c => simp [ht]

/-- C8 (amended): `selectTeacherClassroomCombination` checks no precondition on
the slot count. For every slotsNeeded below 1 it returns the first teacher
entry with free slots and the first classroom entry with free slots, with
timeSlots `matching.slice(0, slotsNeeded)`, and it returns none exactly when
no teacher entry or no classroom entry has free slots. -/
theorem selectTeacherClassroomCombination_of_nonpos (teachers : List TeacherAvailability)
    (classrooms : List ClassroomAvailability) (slotsNeeded : Int) (hn : slotsNeeded < 1) :
    selectTeacherClassroomCombination teachers classrooms slotsNeeded =
      match teachers.find? (fun t => decide (t.availableTimeSlots.length ≠ 0)),
            classrooms.find? (fun c => decide (c.availableTimeSlots.length ≠ 0)) with
      | some t, some c =>
        some { teacher := t.teacher, classroom := c.classroom,
               timeSlots := jsSlice0 (matchingSlots t c) slotsNeeded }
      | _, _ => none := by
  unfold selectTeacherClassroomCombination
  by_cases ht : teachers.length = 0
  · have : teachers = [] := List.length_eq_zero.mp ht
    simp [this]
  · rw [if_neg ht]
    by_cases hc : classrooms.length = 0
    · have : classrooms = [] := List.length_eq_zero.mp hc
      rw [if_pos hc, this]
      simp
    · rw [if_neg hc]
      exact selectTeacherLoop_of_nonpos classrooms slotsNeeded hn teachers

/-- C8, counterexample: with slotsNeeded 0 the selector signals no failure and
returns a combination, whose timeSlots is empty. -/
theorem selectTeacherClassroomCombination_zero_returns :
    (0 : Int) < 1 ∧
    selectTeacherClassroomCombination [exTeacherAvailability] [exClassroomAvailability] 0
      = some { teacher := exTeacher, classroom := exClassroom, timeSlots := [] } := by
  decide

/-- An instance of the amended C8 with slotsNeeded -1: the selected slots are
the matching slots without the last one. -/
theorem selectTeacherClassroomCombination_of_nonpos_witness :
    (-1 : Int) < 1 ∧
    selectTeacherClassroomCombination [exTeacherAvailability] [exClassroomAvailability] (-1)
      = some { teacher := exTeacher, classroom := exClassroom,
               timeSlots := ["Sunday 8:00-9:00", "Sunday 9:00-10:00"] } :=
  ⟨by decide,
   (selectTeacherClassroomCombination_of_nonpos [exTeacherAvailability]
     [exClassroomAvailability] (-1) (by decide)).trans (by decide)⟩

/-! ## Properties of the section locator -/

/-- The loop of `findAvailableSection` is a first-match search for an open seat. -/
theorem findAvailableSectionLoop_eq_find (classrooms : List Classroom) (l : List Section) :
    findAvailableSectionLoop classrooms l = l.find? (hasOpenSeat classrooms) := by
  induction l with
  | nil => rfl
  | cons sec rest ih =>
    unfold findAvailableSectionLoop
    rw [List.find?_cons]
    cases hc : findClassroom classrooms sec.classroomId with
    | none => simp [hasOpenSeat, hc, ih]
    | some classroom =>
      by_cases hseat : classroom.capacity - sec.studentCount > 0
      · simp [hasOpenSeat, hc, hseat]
      · simp [hasOpenSeat, hc, hseat, ih]

theorem findAvailableSection_eq_find (db : Db) (subject : Subject) :
    findAvailableSection db subject
      = db.sections.find? (isOpenSectionOf db.classrooms subject) := by
  unfold findAvailableSection
  simp only [findAvailableSectionLoop_eq_find, List.find?_filter]
  congr 1
  funext sec
  by_cases h : sec.subjectId = subject.id <;> simp [isOpenSectionOf, h]

theorem hasOpenSeat_iff {classrooms : List Classroom} {sec : Section} :
    hasOpenSeat classrooms sec = true ↔
      ∃ classroom, findClassroom classrooms sec.classroomId = some classroom ∧
        sec.studentCount < classroom.capacity := by
  unfold hasOpenSeat
  cases hc : findClassroom classrooms sec.classroomId with
  | none => simp
  | some classroom =>
    simp only [decide_eq_true_eq, Option.some.injEq, exists_eq_left']
    omega

/-- C6: `findAvailableSection` returns the first section, in storage iteration
order, of the subject whose classroom record exists and has
`capacity - studentCount > 0`; it returns none exactly when no stored section
is such a section; and a section it returns has a classroom record and a
studentCount below that classroom's capacity. -/
theorem findAvailableSection_first_open (db : Db) (subject : Subject) :
    findAvailableSection db subject
        = db.sections.find? (isOpenSectionOf db.classrooms subject) ∧
    (findAvailableSection db subject = none ↔
        ∀ sec ∈ db.sections, isOpenSectionOf db.classrooms subject sec = false) ∧
    (∀ sec, findAvailableSection db subject = some sec →
        sec ∈ db.sections ∧ sec.subjectId = subject.id ∧
        ∃ classroom, findClassroom db.classrooms sec.classroomId = some classroom ∧
          ¬ sec.studentCount ≥ classroom.capacity) := by
  refine ⟨findAvailableSection_eq_find db subject, ?_, ?_⟩
  · rw [findAvailableSection_eq_find, List.find?_eq_none]
    simp
  · intro sec h
    rw [findAvailableSection_eq_find] at h
    have hmem := List.mem_of_find?_eq_some h
    have hopen := List.find?_some h
    simp only [isOpenSectionOf, Bool.and_eq_true, beq_iff_eq] at hopen
    obtain ⟨classroom, hc, hlt⟩ := hasOpenSeat_iff.mp hopen.2
    exact ⟨hmem, hopen.1, classroom, hc, by omega⟩

/-! ## Properties of the availability calculator -/

theorem mem_freeSlots {busy : List TimeSlot} {slot : TimeSlot} :
    slot ∈ freeSlots busy ↔ slot ∈ timeSlots ∧ slot ∉ busy := by
  simp [freeSlots]

theorem freeSlots_sublist (busy : List TimeSlot) : (freeSlots busy).Sublist timeSlots :=
  List.filter_sublist _

/-- The list `freeSlots busy` is the complement of `busy` in the grid. -/
theorem freeSlots_complement (busy : List TimeSlot) : ComplementOfBusy busy (freeSlots busy) := by
  refine ⟨?_, freeSlots_sublist busy, ?_, ?_⟩
  · intro slot h
    exact (mem_freeSlots.mp h).2
  · intro slot h
    by_cases hb : slot ∈ busy
    · exact Or.inr hb
    · exact Or.inl (mem_freeSlots.mpr ⟨h, hb⟩)
  · intro hgrid slot
    constructor
    · rintro (h | h)
      · exact (mem_freeSlots.mp h).1
      · exact hgrid slot h
    · intro h
      by_cases hb : slot ∈ busy
      · exact Or.inr hb
      · exact Or.inl (mem_freeSlots.mpr ⟨h, hb⟩)

/-- A callback that returns does so for a teacher with a `subjects` list: the
entry of the teacher when the list holds the subject, `null` otherwise. -/
theorem teacherAvailability_ok {sections : List Section} {subject : Subject}
    {teacher : Teacher} {result : Option TeacherAvailability}
    (h : teacherAvailability sections subject teacher = .ok result) :
    ∃ subjects, teacher.subjects = some subjects ∧
      result = if subject.id ∈ subjects then
          some { teacher := teacher
                 availableTimeSlots := freeSlots (teacherUnavailable sections teacher.id) }
        else none := by
  unfold teacherAvailability at h
  cases hs : teacher.subjects with
  | none => simp [hs] at h
  | some subjects =>
    refine ⟨subjects, rfl, ?_⟩
    by_cases hmem : subject.id ∈ subjects
    · simp [hs, hmem] at h
      simp [hmem, ← h]
    · simp [hs, hmem] at h
      simp [hmem, ← h]

/-- The entries among the results of the callbacks. -/
theorem mem_teachersAvailabilityAll {sections : List Section} {subject : Subject}
    {e : TeacherAvailability} :
    ∀ {teachers : List Teacher} {results : List (Option TeacherAvailability)},
      teachersAvailabilityAll sections subject teachers = .ok results →
      (some e ∈ results ↔
        e.teacher ∈ teachers ∧
        (∃ subjects, e.teacher.subjects = some subjects ∧ subject.id ∈ subjects) ∧
        e.availableTimeSlots = freeSlots (teacherUnavailable sections e.teacher.id)) := by
  intro teachers
  induction teachers with
  | nil =>
    intro results h
    simp only [teachersAvailabilityAll, Except.ok.injEq] at h
    subst h
    simp
  | cons teacher rest ih =>
    intro results h
    unfold teachersAvailabilityAll at h
    split at h
    · simp at h
    · rename_i result hresult
      split at h
      · simp at h
      · rename_i others hothers
        simp only [Except.ok.injEq] at h
        subst h
        obtain ⟨subjects, hs, hres⟩ := teacherAvailability_ok hresult
        rw [List.mem_cons, ih hothers]
        constructor
        · rintro (hhead | ⟨hmem, hsub, hfree⟩)
          · rw [hres] at hhead
            by_cases hin : subject.id ∈ subjects
            · rw [if_pos hin] at hhead
              have := Option.some.inj hhead
              subst this
              exact ⟨List.mem_cons_self _ _, ⟨subjects, hs, hin⟩, rfl⟩
            · rw [if_neg hin] at hhead
              cases hhead
          · exact ⟨List.mem_cons_of_mem _ hmem, hsub, hfree⟩
        · rintro ⟨hmem, ⟨l, hl, hin⟩, hfree⟩
          rcases List.mem_cons.mp hmem with hhead | htail
          · left
            rw [hres]
            have hsl : subjects = l := by
              rw [hhead, hs] at hl
              exact Option.some.inj hl
            rw [if_pos (hsl ▸ hin)]
            cases e
            simp_all
          · exact Or.inr ⟨htail, ⟨l, hl, hin⟩, hfree⟩

theorem mem_getTeachersAvailability {db : Db} {subject : Subject}
    {teachersAvailability : List TeacherAvailability} {e : TeacherAvailability}
    (hok : getTeachersAvailability db subject = .ok teachersAvailability) :
    e ∈ teachersAvailability ↔
      e.teacher ∈ db.teachers ∧
      (∃ subjects, e.teacher.subjects = some subjects ∧ subject.id ∈ subjects) ∧
      e.availableTimeSlots = freeSlots (teacherUnavailable db.sections e.teacher.id) := by
  unfold getTeachersAvailability at hok
  split at hok
  · simp at hok
  · rename_i results hresults
    simp only [Except.ok.injEq] at hok
    subst hok
    rw [← mem_teachersAvailabilityAll hresults]
    simp

/-- The callbacks all return when every teacher record has a `subjects` list. -/
theorem teachersAvailabilityAll_isOk (sections : List Section) (subject : Subject) :
    ∀ (teachers : List Teacher), (∀ t ∈ teachers, t.subjects ≠ none) →
      ∃ results, teachersAvailabilityAll sections subject teachers = .ok results := by
  intro teachers
  induction teachers with
  | nil => intro _; exact ⟨[], rfl⟩
  | cons teacher rest ih =>
    intro h
    obtain ⟨results, hrest⟩ := ih (fun t ht => h t (List.mem_cons_of_mem _ ht))
    have hteacher := h teacher (List.mem_cons_self _ _)
    cases hs : teacher.subjects with
    | none => exact absurd hs hteacher
    | some subjects =>
      have hcall : ∃ result, teacherAvailability sections subject teacher = .ok result := by
        unfold teacherAvailability
        rw [hs]
        simp only
        split <;> exact ⟨_, rfl⟩
      obtain ⟨result, hresult⟩ := hcall
      exact ⟨result :: results, by unfold teachersAvailabilityAll; rw [hresult, hrest]⟩

/-- The function `getTeachersAvailability` returns when every teacher record
has a `subjects` list. -/
theorem getTeachersAvailability_isOk (db : Db) (subject : Subject)
    (h : ∀ t ∈ db.teachers, t.subjects ≠ none) :
    ∃ teachersAvailability, getTeachersAvailability db subject = .ok teachersAvailability := by
  obtain ⟨results, hresults⟩ := teachersAvailabilityAll_isOk db.sections subject db.teachers h
  exact ⟨results.filterMap id, by unfold getTeachersAvailability; rw [hresults]⟩

theorem mem_getClassroomsAvailability {db : Db} {e : ClassroomAvailability} :
    e ∈ getClassroomsAvailability db ↔
      e.classroom ∈ db.classrooms ∧ e.availableTimeSlots ≠ [] ∧
      e.availableTimeSlots = freeSlots (classroomUnavailable db.sections e.classroom.id) := by
  unfold getClassroomsAvailability
  rw [List.mem_filter, List.mem_map]
  constructor
  · rintro ⟨⟨classroom, hmem, rfl⟩, hlen⟩
    refine ⟨hmem, ?_, rfl⟩
    intro hnil
    simp only at hnil
    simp [hnil] at hlen
  · rintro ⟨hmem, hne, hfree⟩
    refine ⟨⟨e.classroom, hmem, ?_⟩, ?_⟩
    · cases e
      simp_all
    · simpa [List.length_pos] using hne

theorem mem_teacherUnavailable {sections : List Section} {teacherId : String}
    {slot : TimeSlot} :
    slot ∈ teacherUnavailable sections teacherId ↔
      ∃ s ∈ sections, s.teacherId = teacherId ∧ slot ∈ s.timeSlots := by
  simp [teacherUnavailable, and_assoc]

theorem mem_classroomUnavailable {sections : List Section} {classroomId : String}
    {slot : TimeSlot} :
    slot ∈ classroomUnavailable sections classroomId ↔
      ∃ s ∈ sections, s.classroomId = classroomId ∧ slot ∈ s.timeSlots := by
  simp [classroomUnavailable, and_assoc]

/-- Against busy slots that are grid slots, the list `freeSlots` of the array
that holds exactly the busy slots is complement-correct. -/
theorem freeSlots_complementCorrect {busy : TimeSlot → Prop} {unavailable : List TimeSlot}
    (hbusy : ∀ slot, slot ∈ unavailable ↔ busy slot)
    (hgrid : ∀ slot, busy slot → slot ∈ timeSlots) :
    ComplementCorrect busy (freeSlots unavailable) := by
  obtain ⟨hdisj, hsub, _, hexact⟩ := freeSlots_complement unavailable
  refine ⟨fun slot h hb => hdisj slot h ((hbusy slot).mpr hb), ?_, hsub⟩
  intro slot
  rw [← hbusy slot]
  exact hexact (fun x hx => hgrid x ((hbusy x).mp hx)) slot

/-- C5: for every store state whose sections hold grid slots only and every
subject, every entry returned by `getTeachersAvailability` and every entry
returned by `getClassroomsAvailability` is complement-correct: with busy the
union of the timeSlots of all stored sections that reference that teacher
(resp. classroom), freeSlots and busy have no slot in common, freeSlots
together with busy is exactly the 40-slot grid, and freeSlots is listed in
Time Grid order. -/
theorem availability_complement (db : Db) (subject : Subject) (hgrid : OnGrid db.sections) :
    (∀ teachersAvailability, getTeachersAvailability db subject = .ok teachersAvailability →
      ∀ e ∈ teachersAvailability,
        ComplementCorrect (teacherBusy db.sections e.teacher.id) e.availableTimeSlots) ∧
    (∀ e ∈ getClassroomsAvailability db,
      ComplementCorrect (classroomBusy db.sections e.classroom.id) e.availableTimeSlots) := by
  constructor
  · intro teachersAvailability hok e he
    rw [((mem_getTeachersAvailability hok).mp he).2.2]
    refine freeSlots_complementCorrect (fun slot => mem_teacherUnavailable) ?_
    rintro slot ⟨s, hs, _, hslot⟩
    exact hgrid s hs slot hslot
  · intro e he
    rw [(mem_getClassroomsAvailability.mp he).2.2]
    refine freeSlots_complementCorrect (fun slot => mem_classroomUnavailable) ?_
    rintro slot ⟨s, hs, _, hslot⟩
    exact hgrid s hs slot hslot

set_option maxRecDepth 100000 in
/-- An instance of C5 on the example database: the teacher of the one stored
section is busy on its two slots and free on the other 38. -/
theorem availability_complement_witness :
    OnGrid exDb.sections ∧
    getTeachersAvailability exDb exSubject
      = .ok [{ teacher := exTeacher, availableTimeSlots := timeSlots.drop 2 }] ∧
    ComplementCorrect (teacherBusy exDb.sections "t1") (timeSlots.drop 2) :=
  ⟨by unfold OnGrid; decide, by decide,
   (availability_complement exDb exSubject (by unfold OnGrid; decide)).1
     [{ teacher := exTeacher, availableTimeSlots := timeSlots.drop 2 }] (by decide)
     { teacher := exTeacher, availableTimeSlots := timeSlots.drop 2 }
     (List.mem_singleton.mpr rfl)⟩

/-! ## Properties of the section creator -/

set_option maxRecDepth 100000 in
theorem timeSlots_nodup : timeSlots.Nodup := by decide

/-- A call of `createNewSection` that returns nothing leaves the database as it was. -/
theorem createNewSection_none {db db1 : Db} {now : Nat} {subject : Subject}
    (h : createNewSection db now subject = .ok (db1, none)) : db1 = db := by
  unfold createNewSection at h
  split at h
  · simp at h
  · simp only at h
    split at h
    · exact (Prod.mk.inj (Except.ok.inj h)).1.symm
    · split at h
      · exact (Prod.mk.inj (Except.ok.inj h)).1.symm
      · simp at h

/-- A section returned by `createNewSection` is built from an entry of each
availability list, and the database after the call holds it at its key. -/
theorem createNewSection_some {db db1 : Db} {now : Nat} {subject : Subject} {sec : Section}
    (h : createNewSection db now subject = .ok (db1, some sec)) :
    ∃ teachersAvailability, getTeachersAvailability db subject = .ok teachersAvailability ∧
    ∃ t ∈ teachersAvailability, ∃ c ∈ getClassroomsAvailability db,
      subject.time ≤ ((matchingSlots t c).length : Int) ∧
      sec = { id := now, subjectId := subject.id, teacherId := t.teacher.id,
              classroomId := c.classroom.id,
              timeSlots := jsSlice0 (matchingSlots t c) subject.time, studentCount := 0 } ∧
      db1 = { db with sections := dbSetSection db.sections sec } := by
  unfold createNewSection at h
  split at h
  · simp at h
  · rename_i teachersAvailability hok
    simp only at h
    split at h
    · simp at h
    · split at h
      · simp at h
      · rename_i comb hcomb
        obtain ⟨t, ht, c, hc, hlen, hr⟩ := selectTeacherClassroomCombination_some hcomb
        obtain ⟨h1, h2⟩ := Prod.mk.inj (Except.ok.inj h)
        have hsec := Option.some.inj h2
        subst hr
        refine ⟨teachersAvailability, hok, t, ht, c, hc, hlen, hsec.symm, ?_⟩
        rw [← h1, ← hsec]

/-- C10: for every store state and every subject with `subject.time >= 1`, a
section returned by `createNewSection` has exactly `subject.time` time slots,
pairwise distinct and all on the Time Grid, studentCount 0 and the subject's id
as subjectId. -/
theorem createNewSection_wellFormed (db db1 : Db) (now : Nat) (subject : Subject)
    (sec : Section) (htime : 1 ≤ subject.time)
    (h : createNewSection db now subject = .ok (db1, some sec)) :
    (sec.timeSlots.length : Int) = subject.time ∧ sec.timeSlots.Nodup ∧
    (∀ slot ∈ sec.timeSlots, slot ∈ timeSlots) ∧
    sec.studentCount = 0 ∧ sec.subjectId = subject.id := by
  obtain ⟨_, hok, t, ht, c, _, hlen, hsec, _⟩ := createNewSection_some h
  have hfree := ((mem_getTeachersAvailability hok).mp ht).2.2
  have hsub : sec.timeSlots.Sublist timeSlots := by
    have hmatch : (matchingSlots t c).Sublist t.availableTimeSlots := List.filter_sublist _
    rw [hfree] at hmatch
    rw [hsec]
    exact (jsSlice0_sublist _ _).trans (hmatch.trans (freeSlots_sublist _))
  refine ⟨?_, hsub.nodup timeSlots_nodup, fun slot hs => hsub.subset hs, ?_, ?_⟩
  · rw [hsec]
    simp only
    rw [jsSlice0_of_nonneg _ _ (by omega), List.length_take]
    omega
  · rw [hsec]
  · rw [hsec]

set_option maxRecDepth 100000 in
/-- An instance of C10: the section created for `math` on the empty example database. -/
theorem createNewSection_wellFormed_witness :
    (1 : Int) ≤ exSubject.time ∧
    createNewSection exDbEmpty 1000 exSubject
      = .ok ({ exDbEmpty with sections := [exNewSection] }, some exNewSection) ∧
    ((exNewSection.timeSlots.length : Int) = exSubject.time ∧ exNewSection.timeSlots.Nodup ∧
      (∀ slot ∈ exNewSection.timeSlots, slot ∈ timeSlots) ∧
      exNewSection.studentCount = 0 ∧ exNewSection.subjectId = exSubject.id) :=
  ⟨by decide, by decide,
   createNewSection_wellFormed exDbEmpty { exDbEmpty with sections := [exNewSection] } 1000
     exSubject exNewSection (by decide) (by decide)⟩

theorem insertByKey_perm (s : Section) (l : List Section) : (insertByKey s l).Perm (s :: l) := by
  induction l with
  | nil => exact List.Perm.refl _
  | cons x xs ih =>
    unfold insertByKey
    split
    · exact List.Perm.refl _
    · exact (List.Perm.cons x ih).trans (List.Perm.swap s x xs)

theorem mem_dbSetSection {l : List Section} {s x : Section} :
    x ∈ dbSetSection l s ↔ x = s ∨ (x ∈ l ∧ x.id ≠ s.id) := by
  unfold dbSetSection
  rw [(insertByKey_perm s _).mem_iff]
  simp

/-- A symmetric relation that holds pairwise on the collection, and between the
written record and every stored one, holds pairwise after the write. -/
theorem pairwise_dbSetSection {R : Section → Section → Prop} (hsymm : ∀ a b, R a b → R b a)
    {l : List Section} {s : Section} (hl : l.Pairwise R) (hs : ∀ a ∈ l, R s a) :
    (dbSetSection l s).Pairwise R := by
  unfold dbSetSection
  refine ((insertByKey_perm s _).pairwise_iff (fun {a b} h => hsymm a b h)).mpr ?_
  rw [List.pairwise_cons]
  exact ⟨fun a ha => hs a (List.mem_of_mem_filter ha), hl.sublist (List.filter_sublist _)⟩

/-- C2: for every subject and every store state without double booking, the
time slots of a section returned by `createNewSection` are disjoint from those
of every stored section with the same teacherId and from those of every stored
section with the same classroomId, and the store is without double booking
after the new section is persisted. -/
theorem createNewSection_no_double_booking (db db1 : Db) (now : Nat) (subject : Subject)
    (sec : Section) (hinv : NoDoubleBooking db.sections)
    (h : createNewSection db now subject = .ok (db1, some sec)) :
    (∀ s ∈ db.sections, s.teacherId = sec.teacherId →
      ∀ slot ∈ sec.timeSlots, slot ∉ s.timeSlots) ∧
    (∀ s ∈ db.sections, s.classroomId = sec.classroomId →
      ∀ slot ∈ sec.timeSlots, slot ∉ s.timeSlots) ∧
    NoDoubleBooking db1.sections := by
  obtain ⟨_, hok, t, ht, c, hc, _, hsec, hdb⟩ := createNewSection_some h
  have hslots : ∀ slot ∈ sec.timeSlots,
      slot ∈ t.availableTimeSlots ∧ slot ∈ c.availableTimeSlots := by
    intro slot hslot
    rw [hsec] at hslot
    exact mem_matchingSlots.mp ((jsSlice0_sublist _ _).subset hslot)
  have htid : sec.teacherId = t.teacher.id := by rw [hsec]
  have hcid : sec.classroomId = c.classroom.id := by rw [hsec]
  have hT : ∀ s ∈ db.sections, s.teacherId = sec.teacherId →
      ∀ slot ∈ sec.timeSlots, slot ∉ s.timeSlots := by
    intro s hs hid slot hslot hmem
    have hfree := (hslots slot hslot).1
    rw [((mem_getTeachersAvailability hok).mp ht).2.2] at hfree
    exact (mem_freeSlots.mp hfree).2
      (mem_teacherUnavailable.mpr ⟨s, hs, hid.trans htid, hmem⟩)
  have hC : ∀ s ∈ db.sections, s.classroomId = sec.classroomId →
      ∀ slot ∈ sec.timeSlots, slot ∉ s.timeSlots := by
    intro s hs hid slot hslot hmem
    have hfree := (hslots slot hslot).2
    rw [(mem_getClassroomsAvailability.mp hc).2.2] at hfree
    exact (mem_freeSlots.mp hfree).2
      (mem_classroomUnavailable.mpr ⟨s, hs, hid.trans hcid, hmem⟩)
  refine ⟨hT, hC, ?_⟩
  rw [hdb]
  constructor
  · refine pairwise_dbSetSection ?_ hinv.1 (fun a ha hid => hT a ha hid.symm)
    intro a b hab hid slot hb ha
    exact hab hid.symm slot ha hb
  · refine pairwise_dbSetSection ?_ hinv.2 (fun a ha hid => hC a ha hid.symm)
    intro a b hab hid slot hb ha
    exact hab hid.symm slot ha hb

set_option maxRecDepth 100000 in
/-- An instance of C2: a second section for `math` on the example database
takes the next two slots of the grid. -/
theorem createNewSection_no_double_booking_witness :
    NoDoubleBooking exDb.sections ∧
    createNewSection exDb 2000 exSubject
      = .ok ({ exDb with sections := [exSection, exNextSection] }, some exNextSection) ∧
    ((∀ s ∈ exDb.sections, s.teacherId = exNextSection.teacherId →
        ∀ slot ∈ exNextSection.timeSlots, slot ∉ s.timeSlots) ∧
     (∀ s ∈ exDb.sections, s.classroomId = exNextSection.classroomId →
        ∀ slot ∈ exNextSection.timeSlots, slot ∉ s.timeSlots) ∧
     NoDoubleBooking [exSection, exNextSection]) :=
  ⟨by unfold NoDoubleBooking; decide, by decide,
   createNewSection_no_double_booking exDb { exDb with sections := [exSection, exNextSection] }
     2000 exSubject exNextSection (by unfold NoDoubleBooking; decide) (by decide)⟩

/-! ## Properties of the schedule builder -/

/-- When every teacher record has a `subjects` list and none of the lists
holds the subject, the teacher-availability list is returned and is empty. -/
theorem getTeachersAvailability_eq_nil {db : Db} {subject : Subject}
    (hno : ∀ t ∈ db.teachers, ∃ subjects, t.subjects = some subjects ∧ subject.id ∉ subjects) :
    getTeachersAvailability db subject = .ok [] := by
  have hsome : ∀ t ∈ db.teachers, t.subjects ≠ none := by
    intro t ht hnone
    obtain ⟨l, hl, _⟩ := hno t ht
    rw [hl] at hnone
    cases hnone
  obtain ⟨teachersAvailability, hok⟩ := getTeachersAvailability_isOk db subject hsome
  have hnil : teachersAvailability = [] := by
    rw [List.eq_nil_iff_forall_not_mem]
    intro e he
    obtain ⟨hmem, ⟨l, hl, hin⟩, _⟩ := (mem_getTeachersAvailability hok).mp he
    obtain ⟨l1, hl1, hnotin⟩ := hno e.teacher hmem
    rw [hl] at hl1
    cases hl1
    exact hnotin hin
  rw [hok, hnil]

/-- A pair whose subject resolves and for which neither an open section is
found nor a section is created leaves the state of the run as it was. -/
theorem scheduleStep_of_none {subjects : List Subject} {now : Nat} {st : RunState}
    (student : Student) {subjectId : String} {subject : Subject} {db1 : Db}
    (hsub : subjects.find? (fun sub => sub.id == subjectId) = some subject)
    (hfind : findAvailableSection st.1 subject = none)
    (hcreate : createNewSection st.1 now subject = .ok (db1, none)) :
    scheduleStep subjects now st student subjectId = .ok st := by
  have hdb : db1 = st.1 := createNewSection_none hcreate
  subst hdb
  unfold scheduleStep
  simp only [hsub, findOrCreateSection, hfind, hcreate]

/-- On a store in which every teacher record has a `subjects` list and none
of the lists holds `subject.id`, `createNewSection(subject)` returns none and
leaves the whole database unchanged; and in a run, a pair for which both
`findAvailableSection` and `createNewSection` return none changes neither the
result map nor the database, and the run goes on with the remaining pairs. -/
theorem createNewSection_no_teacher (db : Db) (now : Nat) (subject : Subject)
    (hno : ∀ t ∈ db.teachers, ∃ subjects, t.subjects = some subjects ∧ subject.id ∉ subjects) :
    createNewSection db now subject = .ok (db, none) ∧
    ∀ (subjects : List Subject) (clock : Nat → Nat) (k : Nat) (st : RunState)
      (student : Student) (subjectId : String) (subject1 : Subject) (db1 : Db)
      (rest : List (Student × String)),
      subjects.find? (fun sub => sub.id == subjectId) = some subject1 →
      findAvailableSection st.1 subject1 = none →
      createNewSection st.1 (clock k) subject1 = .ok (db1, none) →
      scheduleStep subjects (clock k) st student subjectId = .ok st ∧
      scheduleLoop subjects clock k ((student, subjectId) :: rest) st
        = scheduleLoop subjects clock (k + 1) rest st := by
  constructor
  · unfold createNewSection
    simp [getTeachersAvailability_eq_nil hno]
  · intro subjects clock k st student subjectId subject1 db1 rest hsub hfind hcreate
    have hstep := scheduleStep_of_none student hsub hfind hcreate
    refine ⟨hstep, ?_⟩
    rw [scheduleLoop, hstep]

set_option maxRecDepth 100000 in
/-- Scenario C of the specification on the empty example database: the one
teacher has a `subjects` list without `phys`, so the pair of the student with
`phys` is skipped and the run goes on with the pair for `math`. -/
theorem createNewSection_no_teacher_example :
    (∀ t ∈ exDbEmpty.teachers, ∃ subjects, t.subjects = some subjects ∧
      exPhysics.id ∉ subjects) ∧
    createNewSection exDbEmpty 1000 exPhysics = .ok (exDbEmpty, none) ∧
    scheduleLoop [exPhysics, exSubject] (fun _ => 1000) 0
        [(exStudent3, "phys"), (exStudent3, "math")] (exDbEmpty, [])
      = scheduleLoop [exPhysics, exSubject] (fun _ => 1000) 1
          [(exStudent3, "math")] (exDbEmpty, []) :=
  have hno : ∀ t ∈ exDbEmpty.teachers, ∃ subjects, t.subjects = some subjects ∧
      exPhysics.id ∉ subjects := by
    intro t ht
    rw [List.mem_singleton.mp ht]
    exact ⟨["math"], rfl, by decide⟩
  ⟨hno,
   (createNewSection_no_teacher exDbEmpty 1000 exPhysics hno).1,
   ((createNewSection_no_teacher exDbEmpty 1000 exPhysics hno).2
      [exPhysics, exSubject] (fun _ => 1000) 0 (exDbEmpty, []) exStudent3 "phys" exPhysics
      exDbEmpty [(exStudent3, "math")] (by decide) (by decide) (by decide)).2⟩

set_option maxRecDepth 100000 in
/-- C9, the code at the failing input: a teacher saved with `subjects: []` is
stored without the field. No teacher's subjects list holds `phys`, yet
`createNewSection` throws a TypeError instead of returning none, and the run
for a student enrolled in `phys` and `math` ends with that error and an empty
result map: the pair for `math`, which the other teacher could serve, gets no
entry. Without the teacher that has no `subjects` the same run returns and
records the pair for `math`. -/
theorem createNewSection_throws_without_subjects :
    (∀ t ∈ exDbNoSubjects.teachers, ∀ subjects, t.subjects = some subjects →
      exPhysics.id ∉ subjects) ∧
    createNewSection exDbNoSubjects 1000 exPhysics = .error .typeError ∧
    createSchedules exDbNoSubjects (fun _ => 1000)
      = ((exDbNoSubjects, []), some .typeError) ∧
    (createSchedules { exDbNoSubjects with teachers := [exTeacher] } (fun _ => 1000)).2
      = none ∧
    ((createSchedules { exDbNoSubjects with teachers := [exTeacher] } (fun _ => 1000)).1.2.map
        (fun entry => entry.1)) = ["s3-math"] := by
  refine ⟨?_, by decide, by decide, by decide, by decide⟩
  intro t ht subjects hs
  simp only [exDbNoSubjects, List.mem_cons, List.mem_singleton, List.not_mem_nil,
    or_false] at ht
  rcases ht with rfl | rfl
  · simp only [exTeacher, Option.some.injEq] at hs
    subst hs
    decide
  · simp [exTeacherNoSubjects] at hs

theorem map_id_dbSetStudentCount (l : List Section) (id : Nat) (n : Int) :
    (dbSetStudentCount l id n).map (fun s => s.id) = l.map (fun s => s.id) := by
  unfold dbSetStudentCount
  rw [List.map_map]
  apply List.map_congr_left
  intro x _
  simp only [Function.comp]
  split <;> rfl

theorem uniqueIds_dbSetStudentCount {l : List Section} (id : Nat) (n : Int)
    (h : UniqueIds l) : UniqueIds (dbSetStudentCount l id n) := by
  unfold UniqueIds
  rw [map_id_dbSetStudentCount]
  exact h

theorem uniqueIds_dbSetSection {l : List Section} (s : Section) (h : UniqueIds l) :
    UniqueIds (dbSetSection l s) := by
  unfold UniqueIds dbSetSection
  refine ((insertByKey_perm s _).map _).nodup_iff.mpr ?_
  rw [List.map_cons, List.nodup_cons]
  constructor
  · simp
  · exact h.sublist ((List.filter_sublist _).map _)

/-- In a collection with unique ids a record is determined by its id. -/
theorem eq_of_id_eq {l : List Section} (h : UniqueIds l) {a b : Section}
    (ha : a ∈ l) (hb : b ∈ l) (hid : a.id = b.id) : a = b :=
  List.inj_on_of_nodup_map h ha hb hid

theorem mem_dbSetStudentCount {l : List Section} {id : Nat} {n : Int} {x : Section} :
    x ∈ dbSetStudentCount l id n ↔
      ∃ y ∈ l, x = if y.id = id then { y with studentCount := n } else y := by
  unfold dbSetStudentCount
  rw [List.mem_map]
  constructor
  · rintro ⟨y, hy, rfl⟩
    exact ⟨y, hy, rfl⟩
  · rintro ⟨y, hy, rfl⟩
    exact ⟨y, hy, rfl⟩

/-- A section found by `findAvailableSection` is stored, belongs to the
subject and has a seat left in its classroom. -/
theorem findAvailableSection_some {db : Db} {subject : Subject} {sec : Section}
    (h : findAvailableSection db subject = some sec) :
    sec ∈ db.sections ∧ sec.subjectId = subject.id ∧
    ∃ classroom, findClassroom db.classrooms sec.classroomId = some classroom ∧
      sec.studentCount < classroom.capacity := by
  rw [findAvailableSection_eq_find] at h
  have hopen := List.find?_some h
  simp only [isOpenSectionOf, Bool.and_eq_true, beq_iff_eq] at hopen
  exact ⟨List.mem_of_find?_eq_some h, hopen.1, hasOpenSeat_iff.mp hopen.2⟩

/-- The classroom record found for an id is one of the stored classrooms. -/
theorem findClassroom_mem {classrooms : List Classroom} {classroomId : String}
    {classroom : Classroom} (h : findClassroom classrooms classroomId = some classroom) :
    classroom ∈ classrooms :=
  List.mem_of_find?_eq_some h

/-- What lines 319-323 give: the other collections are untouched, the section
is stored under unique ids, the capacity bound still holds, and the section has
room for one more student provided every classroom has a positive capacity. -/
theorem findOrCreateSection_some {db db1 : Db} {now : Nat} {subject : Subject} {sec : Section}
    (hcap : ∀ c ∈ db.classrooms, 1 ≤ c.capacity) (hids : UniqueIds db.sections)
    (hinv : CapacityRespected db.classrooms db.sections)
    (h : findOrCreateSection db now subject = .ok (db1, some sec)) :
    db1.classrooms = db.classrooms ∧ db1.subjects = db.subjects ∧ sec ∈ db1.sections ∧
    UniqueIds db1.sections ∧ CapacityRespected db.classrooms db1.sections ∧
    ∀ classroom, findClassroom db.classrooms sec.classroomId = some classroom →
      sec.studentCount + 1 ≤ classroom.capacity := by
  unfold findOrCreateSection at h
  split at h
  · rename_i s hfind
    obtain ⟨h1, h2⟩ := Prod.mk.inj (Except.ok.inj h)
    have hs := Option.some.inj h2
    subst h1
    subst hs
    obtain ⟨hmem, _, classroom, hc, hlt⟩ := findAvailableSection_some hfind
    refine ⟨rfl, rfl, hmem, hids, hinv, ?_⟩
    intro classroom1 hc1
    rw [hc] at hc1
    cases hc1
    omega
  · obtain ⟨_, _, t, _, c, _, _, hsec, hdb⟩ := createNewSection_some h
    have hcount : sec.studentCount = 0 := by rw [hsec]
    subst hdb
    refine ⟨rfl, rfl, mem_dbSetSection.mpr (Or.inl rfl), uniqueIds_dbSetSection sec hids, ?_, ?_⟩
    · intro x hx classroom hc
      rcases mem_dbSetSection.mp hx with rfl | ⟨hx1, _⟩
      · have := hcap classroom (findClassroom_mem hc)
        omega
      · exact hinv x hx1 classroom hc
    · intro classroom hc
      have := hcap classroom (findClassroom_mem hc)
      omega

/-- Lines 319-323 returning nothing leave the database as it was. -/
theorem findOrCreateSection_none {db db1 : Db} {now : Nat} {subject : Subject}
    (h : findOrCreateSection db now subject = .ok (db1, none)) : db1 = db := by
  unfold findOrCreateSection at h
  split at h
  · simp at h
  · exact createNewSection_none h

/-- An iteration that throws has written nothing: lines 319-323 threw. -/
theorem scheduleStep_error {subjects : List Subject} {now : Nat} {st : RunState}
    {student : Student} {subjectId : String} {e : JsError}
    (h : scheduleStep subjects now st student subjectId = .error e) :
    ∃ subject, subjects.find? (fun sub => sub.id == subjectId) = some subject ∧
      findAvailableSection st.1 subject = none ∧
      createNewSection st.1 now subject = .error e := by
  unfold scheduleStep at h
  split at h
  · simp at h
  · rename_i subject hsub
    refine ⟨subject, hsub, ?_⟩
    split at h
    · rename_i e1 hfoc
      have he : e1 = e := Except.error.inj h
      subst he
      unfold findOrCreateSection at hfoc
      split at hfoc
      · simp at hfoc
      · rename_i hfind
        exact ⟨hfind, hfoc⟩
    · simp at h
    · simp at h

/-- One iteration that returns keeps the classrooms, the uniqueness of the
section ids and the capacity bound, provided every classroom has a positive
capacity. -/
theorem scheduleStep_capacity (subjects : List Subject) (now : Nat) {st st1 : RunState}
    (student : Student) (subjectId : String)
    (hcap : ∀ c ∈ st.1.classrooms, 1 ≤ c.capacity) (hids : UniqueIds st.1.sections)
    (hinv : CapacityRespected st.1.classrooms st.1.sections)
    (hstep : scheduleStep subjects now st student subjectId = .ok st1) :
    st1.1.classrooms = st.1.classrooms ∧ UniqueIds st1.1.sections ∧
    CapacityRespected st.1.classrooms st1.1.sections := by
  unfold scheduleStep at hstep
  split at hstep
  · have := Except.ok.inj hstep
    subst this
    exact ⟨rfl, hids, hinv⟩
  · split at hstep
    · simp at hstep
    · rename_i db1 hfoc
      have hdb := findOrCreateSection_none hfoc
      subst hdb
      have := Except.ok.inj hstep
      subst this
      exact ⟨rfl, hids, hinv⟩
    · rename_i db1 sec hfoc
      obtain ⟨hcl, _, hmem, hids1, hinv1, hroom⟩ := findOrCreateSection_some hcap hids hinv hfoc
      have := Except.ok.inj hstep
      subst this
      refine ⟨hcl, uniqueIds_dbSetStudentCount _ _ hids1, ?_⟩
      intro x hx classroom hc
      obtain ⟨y, hy, rfl⟩ := mem_dbSetStudentCount.mp hx
      by_cases hid : y.id = sec.id
      · have hys : y = sec := eq_of_id_eq hids1 hy hmem hid
        subst hys
        rw [if_pos hid] at hc ⊢
        exact hroom classroom hc
      · rw [if_neg hid] at hc ⊢
        exact hinv1 y hy classroom hc

/-- The loop keeps the classrooms, the uniqueness of the section ids and the
capacity bound, whether it runs to its end or ends with an error. -/
theorem scheduleLoop_capacity (subjects : List Subject) (clock : Nat → Nat)
    (pairs : List (Student × String)) :
    ∀ (k : Nat) (st : RunState), (∀ c ∈ st.1.classrooms, 1 ≤ c.capacity) →
      UniqueIds st.1.sections → CapacityRespected st.1.classrooms st.1.sections →
      (scheduleLoop subjects clock k pairs st).1.1.classrooms = st.1.classrooms ∧
      UniqueIds (scheduleLoop subjects clock k pairs st).1.1.sections ∧
      CapacityRespected st.1.classrooms
        (scheduleLoop subjects clock k pairs st).1.1.sections := by
  induction pairs with
  | nil =>
    intro k st _ hids hinv
    exact ⟨rfl, hids, hinv⟩
  | cons p rest ih =>
    intro k st hcap hids hinv
    rw [scheduleLoop]
    cases hstep : scheduleStep subjects (clock k) st p.1 p.2 with
    | error e => exact ⟨rfl, hids, hinv⟩
    | ok st1 =>
      obtain ⟨hcl, hids1, hinv1⟩ :=
        scheduleStep_capacity subjects (clock k) p.1 p.2 hcap hids hinv hstep
      have := ih (k + 1) st1 (by rw [hcl]; exact hcap) hids1 (by rw [hcl]; exact hinv1)
      rw [hcl] at this
      exact this

/-- Running the first `n` pairs and then, unless one of them threw, the
remaining ones is the whole run. -/
theorem scheduleLoop_take_drop (subjects : List Subject) (clock : Nat → Nat) (n : Nat) :
    ∀ (pairs : List (Student × String)) (k : Nat) (st : RunState),
      scheduleLoop subjects clock k pairs st
        = match scheduleLoop subjects clock k (pairs.take n) st with
          | (st1, none) =>
            scheduleLoop subjects clock (k + min n pairs.length) (pairs.drop n) st1
          | (st1, some e) => (st1, some e) := by
  induction n with
  | zero => intro pairs k st; simp [scheduleLoop]
  | succ n ih =>
    intro pairs k st
    cases pairs with
    | nil => simp [scheduleLoop]
    | cons p rest =>
      simp only [List.take_succ_cons, List.drop_succ_cons, scheduleLoop, List.length_cons]
      cases hstep : scheduleStep subjects (clock k) st p.1 p.2 with
      | error e => rfl
      | ok st1 =>
        simp only
        rw [ih rest (k + 1) st1]
        have hk : k + 1 + min n rest.length = k + min (n + 1) (rest.length + 1) := by omega
        rw [hk]

/-- C1 (amended): in a sequential run of `/create-schedules` on a database
whose classrooms all have a capacity of at least 1 and whose sections have
unique ids, starting from a state in which every section's studentCount is at
most the capacity of its classroom, the same holds after each of the first `n`
(student, subject) steps, for every `n`, also when one of them ends the run
with an error; the state after those steps is the one from which the rest of
the run continues. -/
theorem createSchedules_capacity (db : Db) (clock : Nat → Nat)
    (hcap : ∀ c ∈ db.classrooms, 1 ≤ c.capacity) (hids : UniqueIds db.sections)
    (hinv : CapacityRespected db.classrooms db.sections) (n : Nat) :
    CapacityRespected db.classrooms
      (scheduleLoop db.subjects clock 0
        ((enrollments db.students).take n) (db, [])).1.1.sections ∧
    createSchedules db clock
      = match scheduleLoop db.subjects clock 0 ((enrollments db.students).take n) (db, []) with
        | (st1, none) =>
          scheduleLoop db.subjects clock (0 + min n (enrollments db.students).length)
            ((enrollments db.students).drop n) st1
        | (st1, some e) => (st1, some e) :=
  ⟨(scheduleLoop_capacity db.subjects clock ((enrollments db.students).take n) 0 (db, [])
      hcap hids hinv).2.2,
   scheduleLoop_take_drop db.subjects clock n (enrollments db.students) 0 (db, [])⟩

set_option maxRecDepth 100000 in
/-- C1, counterexample: the only classroom has capacity 0. The run creates a
section in it for the student's subject and then counts the student in, so the
section ends with studentCount 1 in a classroom of capacity 0. -/
theorem createSchedules_capacity_exceeded :
    CapacityRespected exDbZeroCapacity.classrooms exDbZeroCapacity.sections ∧
    (createSchedules exDbZeroCapacity (fun _ => 1000)).1.1.sections
      = [{ id := 1000, subjectId := "math", teacherId := "t1", classroomId := "c0",
           timeSlots := ["Sunday 8:00-9:00", "Sunday 9:00-10:00"], studentCount := 1 }] ∧
    ¬ CapacityRespected exDbZeroCapacity.classrooms
        (createSchedules exDbZeroCapacity (fun _ => 1000)).1.1.sections := by
  have hrun : (createSchedules exDbZeroCapacity (fun _ => 1000)).1.1.sections
      = [{ id := 1000, subjectId := "math", teacherId := "t1", classroomId := "c0",
           timeSlots := ["Sunday 8:00-9:00", "Sunday 9:00-10:00"], studentCount := 1 }] := by
    decide
  refine ⟨?_, hrun, ?_⟩
  · intro s hs
    cases hs
  · intro h
    rw [hrun] at h
    have := h _ (List.mem_singleton.mpr rfl) { id := "c0", name := "Closed room", capacity := 0 }
      (by decide)
    exact absurd this (by decide)

set_option maxRecDepth 100000 in
/-- An instance of the amended C1: two students enroll in `math` on the empty
example database, whose classroom has two seats; after both steps the one
section holds two students. -/
theorem createSchedules_capacity_witness :
    (scheduleLoop exDbEmpty.subjects (fun _ => 1000) 0
        ((enrollments exDbEmpty.students).take 2) (exDbEmpty, [])).1.1.sections
      = [{ exNewSection with studentCount := 2 }] ∧
    CapacityRespected exDbEmpty.classrooms
      (scheduleLoop exDbEmpty.subjects (fun _ => 1000) 0
        ((enrollments exDbEmpty.students).take 2) (exDbEmpty, [])).1.1.sections :=
  ⟨by decide,
   (createSchedules_capacity exDbEmpty (fun _ => 1000) (by decide)
      (by unfold UniqueIds; decide) (by intro s hs; cases hs) 2).1⟩

/-! ## Section reuse -/

/-- The value of an iteration whose subject resolves and that gets a section. -/
theorem scheduleStep_of_some {subjects : List Subject} {now : Nat} {st : RunState}
    (student : Student) {subjectId : String} {subject : Subject} {db1 : Db} {sec : Section}
    (hsub : subjects.find? (fun sub => sub.id == subjectId) = some subject)
    (h : findOrCreateSection st.1 now subject = .ok (db1, some sec)) :
    scheduleStep subjects now st student subjectId
      = .ok ({ db1 with
                 sections := dbSetStudentCount db1.sections sec.id (sec.studentCount + 1) },
             setSchedule st.2 (scheduleKey student.id subject.id)
               { student := student, subject := subject,
                 teacher := db1.teachers.find? (fun t => t.id == sec.teacherId),
                 classroom := db1.classrooms.find? (fun c => c.id == sec.classroomId),
                 «section» := sec }) := by
  unfold scheduleStep
  simp only [hsub, h]

theorem find?_map_setSchedule (key : String) (value : Assignment) (schedules : Schedules)
    (h : schedules.any (fun e => e.1 == key) = true) :
    (schedules.map (fun e => if e.1 = key then (key, value) else e)).find?
      (fun e => e.1 == key) = some (key, value) := by
  induction schedules with
  | nil => simp at h
  | cons e rest ih =>
    rw [List.map_cons, List.find?_cons]
    by_cases he : e.1 = key
    · simp [he]
    · have hrest : rest.any (fun e => e.1 == key) = true := by
        simpa [he] using h
      have hne : (e.1 == key) = false := by simpa using he
      simp [he, hne, ih hrest]

/-- Reading a key of the `schedules` object right after writing it gives the
written value. -/
theorem getSchedule_setSchedule (schedules : Schedules) (key : String) (value : Assignment) :
    getSchedule (setSchedule schedules key value) key = some value := by
  unfold getSchedule setSchedule
  split
  · rename_i h
    rw [find?_map_setSchedule key value schedules h]
    rfl
  · rename_i h
    have hnone : schedules.find? (fun e => e.1 == key) = none := by
      rw [List.find?_eq_none]
      intro x hx hkey
      exact h (List.any_eq_true.mpr ⟨x, hx, hkey⟩)
    rw [List.find?_append, hnone]
    simp

/-- Lines 319-323 either find the section or create it. -/
theorem findOrCreateSection_cases {db db1 : Db} {now : Nat} {subject : Subject} {sec : Section}
    (h : findOrCreateSection db now subject = .ok (db1, some sec)) :
    (findAvailableSection db subject = some sec ∧ db1 = db) ∨
    (findAvailableSection db subject = none ∧
      createNewSection db now subject = .ok (db1, some sec)) := by
  unfold findOrCreateSection at h
  split at h
  · rename_i s hfind
    obtain ⟨h1, h2⟩ := Prod.mk.inj (Except.ok.inj h)
    have hs := Option.some.inj h2
    subst hs
    exact Or.inl ⟨hfind, h1.symm⟩
  · rename_i hfind
    exact Or.inr ⟨hfind, h⟩

theorem dbSetStudentCount_of_not_mem {l : List Section} {id : Nat} (n : Int)
    (h : ∀ a ∈ l, a.id ≠ id) : dbSetStudentCount l id n = l := by
  unfold dbSetStudentCount
  conv_rhs => rw [← List.map_id l]
  apply List.map_congr_left
  intro a ha
  simp [h a ha]

/-- After the section given by lines 319-323 has been counted up, it is still
stored under its id, and if it is still open for the subject it is the section
that `findAvailableSection` finds next. -/
theorem findAvailableSection_after_enroll {db db1 : Db} {now : Nat} {subject : Subject}
    {sec : Section} (hids : UniqueIds db.sections)
    (h : findOrCreateSection db now subject = .ok (db1, some sec)) :
    ({ sec with studentCount := sec.studentCount + 1 } : Section)
        ∈ dbSetStudentCount db1.sections sec.id (sec.studentCount + 1) ∧
    UniqueIds (dbSetStudentCount db1.sections sec.id (sec.studentCount + 1)) ∧
    (isOpenSectionOf db1.classrooms subject
        { sec with studentCount := sec.studentCount + 1 } = true →
      findAvailableSection
        { db1 with sections := dbSetStudentCount db1.sections sec.id (sec.studentCount + 1) }
        subject = some { sec with studentCount := sec.studentCount + 1 }) := by
  rcases findOrCreateSection_cases h with ⟨hfind, hdb⟩ | ⟨hfind, hcreate⟩
  · subst hdb
    have hmem : sec ∈ db1.sections := (findAvailableSection_some hfind).1
    refine ⟨mem_dbSetStudentCount.mpr ⟨sec, hmem, by simp⟩,
      uniqueIds_dbSetStudentCount _ _ hids, ?_⟩
    intro hopen
    rw [findAvailableSection_eq_find] at hfind ⊢
    obtain ⟨_, as, bs, hl, hall⟩ := List.find?_eq_some.mp hfind
    have hnodup : (as.map (fun s => s.id) ++ sec.id :: bs.map (fun s => s.id)).Nodup := by
      have := hids
      unfold UniqueIds at this
      rw [hl, List.map_append, List.map_cons] at this
      exact this
    have hnot : ∀ a ∈ as, a.id ≠ sec.id := by
      intro a ha hid
      have h1 := (List.nodup_middle.mp hnodup)
      rw [List.nodup_cons] at h1
      exact h1.1 (List.mem_append_left _ (hid ▸ List.mem_map_of_mem _ ha))
    have hsections : dbSetStudentCount db1.sections sec.id (sec.studentCount + 1)
        = as ++ { sec with studentCount := sec.studentCount + 1 }
            :: dbSetStudentCount bs sec.id (sec.studentCount + 1) := by
      rw [hl]
      conv_lhs => unfold dbSetStudentCount
      rw [List.map_append, List.map_cons]
      have has := dbSetStudentCount_of_not_mem (sec.studentCount + 1) hnot
      unfold dbSetStudentCount at has
      rw [has]
      simp [dbSetStudentCount]
    exact List.find?_eq_some.mpr ⟨hopen, as, _, hsections, hall⟩
  · obtain ⟨_, _, _, _, _, _, _, _, hdb⟩ := createNewSection_some hcreate
    have hmem : sec ∈ db1.sections := by
      rw [hdb]
      exact mem_dbSetSection.mpr (Or.inl rfl)
    have hids1 : UniqueIds db1.sections := by
      rw [hdb]
      exact uniqueIds_dbSetSection sec hids
    have hin : ({ sec with studentCount := sec.studentCount + 1 } : Section)
        ∈ dbSetStudentCount db1.sections sec.id (sec.studentCount + 1) :=
      mem_dbSetStudentCount.mpr ⟨sec, hmem, by simp⟩
    refine ⟨hin, uniqueIds_dbSetStudentCount _ _ hids1, ?_⟩
    intro hopen
    have hclosed : ∀ a ∈ db.sections, ¬ isOpenSectionOf db.classrooms subject a = true := by
      rw [findAvailableSection_eq_find] at hfind
      exact List.find?_eq_none.mp hfind
    have hcl : db1.classrooms = db.classrooms := by rw [hdb]
    rw [findAvailableSection_eq_find]
    cases hres : List.find? (isOpenSectionOf db1.classrooms subject)
        (dbSetStudentCount db1.sections sec.id (sec.studentCount + 1)) with
    | none => exact absurd hopen (List.find?_eq_none.mp hres _ hin)
    | some b =>
      have hb := List.find?_some hres
      obtain ⟨y, hy, hby⟩ := mem_dbSetStudentCount.mp (List.mem_of_find?_eq_some hres)
      by_cases hid : y.id = sec.id
      · have hys : y = sec := eq_of_id_eq hids1 hy hmem hid
        subst hys
        rw [if_pos hid] at hby
        rw [hby]
      · rw [if_neg hid] at hby
        subst hby
        rw [hdb] at hy
        rcases mem_dbSetSection.mp hy with rfl | ⟨hy1, _⟩
        · exact absurd rfl hid
        · rw [hcl] at hb
          exact absurd hb (hclosed b hy1)

/-- C7: in a sequential run over a store with unique section ids, take two
consecutive successfully scheduled pairs of the same subject, the second one
creating a section only under an id that is not yet stored. Each pair is
recorded in the result map with its section, and the second pair gets the same
section id as the first if and only if that section, after the first pair's
studentCount increment, has a classroom record and a studentCount below its
capacity; otherwise the second section has another id. -/
theorem section_reuse (subjects : List Subject) (now1 now2 : Nat) (st st1 st2 : RunState)
    (student1 student2 : Student) (subjectId : String) (subject : Subject)
    (db1 db2 : Db) (sec1 sec2 : Section)
    (hids : UniqueIds st.1.sections)
    (hsub : subjects.find? (fun sub => sub.id == subjectId) = some subject)
    (hst1 : scheduleStep subjects now1 st student1 subjectId = .ok st1)
    (hst2 : scheduleStep subjects now2 st1 student2 subjectId = .ok st2)
    (h1 : findOrCreateSection st.1 now1 subject = .ok (db1, some sec1))
    (hfresh : ∀ s ∈ st1.1.sections, s.id ≠ now2)
    (h2 : findOrCreateSection st1.1 now2 subject = .ok (db2, some sec2)) :
    (getSchedule st1.2 (scheduleKey student1.id subject.id)).map (fun a => a.«section»)
      = some sec1 ∧
    (getSchedule st2.2 (scheduleKey student2.id subject.id)).map (fun a => a.«section»)
      = some sec2 ∧
    (sec2.id = sec1.id ↔
      ∃ s ∈ st1.1.sections, s.id = sec1.id ∧
        ∃ classroom, findClassroom st1.1.classrooms s.classroomId = some classroom ∧
          s.studentCount < classroom.capacity) ∧
    (sec2.id ≠ sec1.id ↔
      ∀ s ∈ st1.1.sections, s.id = sec1.id →
        ∀ classroom, findClassroom st1.1.classrooms s.classroomId = some classroom →
          s.studentCount ≥ classroom.capacity) := by
  have hstep1 := Except.ok.inj (hst1.symm.trans (scheduleStep_of_some student1 hsub h1))
  have hstep2 := Except.ok.inj (hst2.symm.trans (scheduleStep_of_some student2 hsub h2))
  obtain ⟨hin, hids1, hnext⟩ := findAvailableSection_after_enroll hids h1
  have hsections : st1.1.sections
      = dbSetStudentCount db1.sections sec1.id (sec1.studentCount + 1) := by rw [hstep1]
  have hclassrooms : st1.1.classrooms = db1.classrooms := by rw [hstep1]
  have hdb : st1.1 = { db1 with
      sections := dbSetStudentCount db1.sections sec1.id (sec1.studentCount + 1) } := by
    rw [hstep1]
  have hsubj : sec1.subjectId = subject.id := by
    rcases findOrCreateSection_cases h1 with ⟨hfind, _⟩ | ⟨_, hcreate⟩
    · exact (findAvailableSection_some hfind).2.1
    · obtain ⟨_, _, _, _, _, _, _, hsec, _⟩ := createNewSection_some hcreate
      rw [hsec]
  have hiff : sec2.id = sec1.id ↔
      ∃ s ∈ st1.1.sections, s.id = sec1.id ∧
        ∃ classroom, findClassroom st1.1.classrooms s.classroomId = some classroom ∧
          s.studentCount < classroom.capacity := by
    constructor
    · intro hid
      rcases findOrCreateSection_cases h2 with ⟨hfind, _⟩ | ⟨_, hcreate⟩
      · obtain ⟨hmem, _, hopen⟩ := findAvailableSection_some hfind
        exact ⟨sec2, hmem, hid, hopen⟩
      · obtain ⟨_, _, _, _, _, _, _, hsec, _⟩ := createNewSection_some hcreate
        have hnow : sec2.id = now2 := by rw [hsec]
        rw [hsections] at hfresh
        have hne := hfresh { sec1 with studentCount := sec1.studentCount + 1 } hin
        exact absurd (hid.symm.trans hnow) hne
    · rintro ⟨s, hs, hid, hopen⟩
      rw [hsections] at hs
      have hs1 : s = { sec1 with studentCount := sec1.studentCount + 1 } :=
        eq_of_id_eq hids1 hs hin hid
      have hP : isOpenSectionOf db1.classrooms subject
          { sec1 with studentCount := sec1.studentCount + 1 } = true := by
        rw [hclassrooms, hs1] at hopen
        simp only [isOpenSectionOf, Bool.and_eq_true, beq_iff_eq]
        exact ⟨hsubj, hasOpenSeat_iff.mpr hopen⟩
      have hfind := hnext hP
      rw [← hdb] at hfind
      unfold findOrCreateSection at h2
      rw [hfind] at h2
      have := Option.some.inj (Prod.mk.inj (Except.ok.inj h2)).2
      rw [← this]
  refine ⟨?_, ?_, hiff, ?_⟩
  · rw [hstep1, getSchedule_setSchedule]
    rfl
  · rw [hstep2, getSchedule_setSchedule]
    rfl
  · rw [Ne, hiff]
    constructor
    · intro hno s hs hid classroom hc
      by_contra hlt
      exact hno ⟨s, hs, hid, classroom, hc, by omega⟩
    · rintro hall ⟨s, hs, hid, classroom, hc, hlt⟩
      have := hall s hs hid classroom hc
      omega

set_option maxRecDepth 100000 in
/-- Scenario D of the specification as an instance of C7: two students enroll
in `math` one after the other on the empty example database. The first pair
creates the section with id 1000 in the classroom with two seats; after the
increment it holds one student, and the second pair gets the same section. -/
theorem section_reuse_witness :
    scheduleStep [exSubject] 1000 (exDbEmpty, []) exStudent "math" = .ok exStateAfterFirst ∧
    scheduleStep [exSubject] 2000 exStateAfterFirst exStudent2 "math"
      = .ok exStateAfterSecond ∧
    ((getSchedule exStateAfterFirst.2 (scheduleKey exStudent.id exSubject.id)).map
        (fun a => a.«section») = some exNewSection ∧
     (getSchedule exStateAfterSecond.2 (scheduleKey exStudent2.id exSubject.id)).map
        (fun a => a.«section») = some { exNewSection with studentCount := 1 } ∧
     (({ exNewSection with studentCount := 1 } : Section).id = exNewSection.id ↔
      ∃ s ∈ exStateAfterFirst.1.sections, s.id = exNewSection.id ∧
        ∃ classroom,
          findClassroom exStateAfterFirst.1.classrooms s.classroomId = some classroom ∧
          s.studentCount < classroom.capacity) ∧
     (({ exNewSection with studentCount := 1 } : Section).id ≠ exNewSection.id ↔
      ∀ s ∈ exStateAfterFirst.1.sections, s.id = exNewSection.id →
        ∀ classroom,
          findClassroom exStateAfterFirst.1.classrooms s.classroomId = some classroom →
          s.studentCount ≥ classroom.capacity)) :=
  ⟨by decide, by decide,
   section_reuse [exSubject] 1000 2000 (exDbEmpty, []) exStateAfterFirst exStateAfterSecond
     exStudent exStudent2 "math" exSubject
     { exDbEmpty with sections := [exNewSection] } exStateAfterFirst.1
     exNewSection { exNewSection with studentCount := 1 }
     (by unfold UniqueIds; decide) (by decide) (by decide) (by decide) (by decide) (by decide)
     (by decide)⟩

/-! ## The stored sections stay on the grid -/

/-- The slots of a section returned by `createNewSection` are grid slots, and
the call keeps the stored sections on the grid. -/
theorem createNewSection_onGrid {db db1 : Db} {now : Nat} {subject : Subject}
    {result : Option Section} (hgrid : OnGrid db.sections)
    (h : createNewSection db now subject = .ok (db1, result)) : OnGrid db1.sections := by
  cases result with
  | none =>
    rw [createNewSection_none h]
    exact hgrid
  | some sec =>
    obtain ⟨_, hok, t, ht, c, _, _, hsec, hdb⟩ := createNewSection_some h
    have hfree := ((mem_getTeachersAvailability hok).mp ht).2.2
    have hmatch : (matchingSlots t c).Sublist t.availableTimeSlots := List.filter_sublist _
    rw [hfree] at hmatch
    have hsub : sec.timeSlots.Sublist timeSlots := by
      rw [hsec]
      exact (jsSlice0_sublist _ _).trans (hmatch.trans (freeSlots_sublist _))
    rw [hdb]
    intro x hx slot hslot
    rcases mem_dbSetSection.mp hx with rfl | ⟨hx1, _⟩
    · exact hsub.subset hslot
    · exact hgrid x hx1 slot hslot

/-- One iteration that returns keeps the stored sections on the grid. -/
theorem scheduleStep_onGrid {subjects : List Subject} {now : Nat} {st st1 : RunState}
    {student : Student} {subjectId : String} (hgrid : OnGrid st.1.sections)
    (hstep : scheduleStep subjects now st student subjectId = .ok st1) :
    OnGrid st1.1.sections := by
  unfold scheduleStep at hstep
  split at hstep
  · have := Except.ok.inj hstep
    subst this
    exact hgrid
  · split at hstep
    · simp at hstep
    · rename_i db1 hfoc
      have hdb := findOrCreateSection_none hfoc
      subst hdb
      have := Except.ok.inj hstep
      subst this
      exact hgrid
    · rename_i db1 sec hfoc
      have hgrid1 : OnGrid db1.sections := by
        rcases findOrCreateSection_cases hfoc with ⟨_, hdb⟩ | ⟨_, hcreate⟩
        · rw [hdb]
          exact hgrid
        · exact createNewSection_onGrid hgrid hcreate
      have := Except.ok.inj hstep
      subst this
      intro x hx slot hslot
      obtain ⟨y, hy, rfl⟩ := mem_dbSetStudentCount.mp hx
      by_cases hid : y.id = sec.id
      · rw [if_pos hid] at hslot
        exact hgrid1 y hy slot hslot
      · rw [if_neg hid] at hslot
        exact hgrid1 y hy slot hslot

/-- A run that starts from sections on the grid, such as the empty collection
left by `/clear-schedules`, ends with sections on the grid. -/
theorem scheduleLoop_onGrid (subjects : List Subject) (clock : Nat → Nat)
    (pairs : List (Student × String)) :
    ∀ (k : Nat) (st : RunState), OnGrid st.1.sections →
      OnGrid (scheduleLoop subjects clock k pairs st).1.1.sections := by
  induction pairs with
  | nil => intro k st hgrid; exact hgrid
  | cons p rest ih =>
    intro k st hgrid
    rw [scheduleLoop]
    cases hstep : scheduleStep subjects (clock k) st p.1 p.2 with
    | error e => exact hgrid
    | ok st1 => exact ih (k + 1) st1 (scheduleStep_onGrid hgrid hstep)

/-! ## Properties of the time grid -/

set_option maxRecDepth 100000 in
/-- C12: the Time Grid is a list of exactly 40 pairwise distinct labels over
the five days Sunday to Thursday and the eight hour ranges, in day-major,
hour-minor order: for day index `d` below 5 and hour index `h` below 8 the
entry at position `8 * d + h` is `days[d]`, a space, `hours[h]`. -/
theorem timeSlots_grid :
    timeSlots.length = 40 ∧ timeSlots.Nodup ∧
    days = ["Sunday", "Monday", "Tuesday", "Wednesday", "Thursday"] ∧ hours.length = 8 ∧
    ∀ d h, d < 5 → h < 8 →
      (gridLabel d h).isSome = true ∧ timeSlots[8 * d + h]? = gridLabel d h := by
  refine ⟨by decide, timeSlots_nodup, rfl, rfl, ?_⟩
  intro d h hd hh
  have hall : ∀ d, d < 5 → ∀ h, h < 8 →
      (gridLabel d h).isSome = true ∧ timeSlots[8 * d + h]? = gridLabel d h := by
    decide
  exact hall d hd h hh

set_option maxRecDepth 100000 in
/-- An instance of C12: the entry at position `8 * 1 + 2` of the grid. -/
theorem timeSlots_grid_witness :
    (1 < 5 ∧ 2 < 8) ∧ gridLabel 1 2 = some "Monday 10:00-11:00" ∧
    ((gridLabel 1 2).isSome = true ∧ timeSlots[8 * 1 + 2]? = gridLabel 1 2) :=
  ⟨by decide, by decide, timeSlots_grid.2.2.2.2 1 2 (by decide) (by decide)⟩

/-! ## Properties of the keys of the result map -/

theorem scheduleKey_data (studentId subjectId : String) :
    (scheduleKey studentId subjectId).data = studentId.data ++ '-' :: subjectId.data := by
  unfold scheduleKey
  rw [String.data_append, String.data_append, List.append_assoc]
  rfl

/-- Two lists split at their first `-` agree on both sides of it. -/
theorem append_dash_inj_left {a a1 b b1 : List Char} (ha : '-' ∉ a) (ha1 : '-' ∉ a1)
    (h : a ++ '-' :: b = a1 ++ '-' :: b1) : a = a1 ∧ b = b1 := by
  induction a generalizing a1 with
  | nil =>
    cases a1 with
    | nil => simpa using h
    | cons c cs =>
      simp only [List.nil_append, List.cons_append, List.cons.injEq] at h
      exact absurd (h.1 ▸ List.mem_cons_self _ _) ha1
  | cons x xs ih =>
    cases a1 with
    | nil =>
      simp only [List.nil_append, List.cons_append, List.cons.injEq] at h
      exact absurd (h.1 ▸ List.mem_cons_self _ _) ha
    | cons c cs =>
      simp only [List.cons_append, List.cons.injEq] at h
      obtain ⟨hx, hrest⟩ := h
      obtain ⟨h1, h2⟩ := ih (fun hm => ha (List.mem_cons_of_mem _ hm))
        (fun hm => ha1 (List.mem_cons_of_mem _ hm)) hrest
      exact ⟨by rw [hx, h1], h2⟩

/-- Two lists split at their last `-` agree on both sides of it. -/
theorem append_dash_inj_right {a a1 b b1 : List Char} (hb : '-' ∉ b) (hb1 : '-' ∉ b1)
    (h : a ++ '-' :: b = a1 ++ '-' :: b1) : a = a1 ∧ b = b1 := by
  have hrev : b.reverse ++ '-' :: a.reverse = b1.reverse ++ '-' :: a1.reverse := by
    have := congrArg List.reverse h
    simpa using this
  obtain ⟨h1, h2⟩ := append_dash_inj_left (by simpa using hb) (by simpa using hb1) hrev
  exact ⟨List.reverse_injective h2, List.reverse_injective h1⟩

/-- Writing another key leaves the value read at a key as it was. -/
theorem getSchedule_setSchedule_of_ne (schedules : Schedules) {key key1 : String}
    (value : Assignment) (hne : key ≠ key1) :
    getSchedule (setSchedule schedules key value) key1 = getSchedule schedules key1 := by
  have hkey : (key == key1) = false := by simpa using hne
  unfold getSchedule setSchedule
  split
  · congr 1
    clear * - hne hkey
    induction schedules with
    | nil => rfl
    | cons e rest ih =>
      rw [List.map_cons, List.find?_cons, List.find?_cons, ih]
      by_cases he : e.1 = key
      · have he1 : (e.1 == key1) = false := by
          rw [he]
          exact hkey
        simp [he, he1, hkey]
      · simp [he]
  · rw [List.find?_append]
    simp [hkey]

/-- C11 (amended): the result map is keyed by the student id, a `-` and the
subject id. For all student ids s1, s2 and subject ids j1, j2 such that the two
student ids hold no `-`, or the two subject ids hold no `-`, the keys of
(s1, j1) and (s2, j2) are equal only if s1 = s2 and j1 = j2, and writing the
assignment of one of two different pairs leaves the entry of the other. -/
theorem scheduleKey_injective (s1 s2 j1 j2 : String)
    (hdash : (NoDash s1 ∧ NoDash s2) ∨ (NoDash j1 ∧ NoDash j2)) :
    (scheduleKey s1 j1 = scheduleKey s2 j2 → s1 = s2 ∧ j1 = j2) ∧
    (¬ (s1 = s2 ∧ j1 = j2) → ∀ (schedules : Schedules) (value : Assignment),
      getSchedule (setSchedule schedules (scheduleKey s2 j2) value) (scheduleKey s1 j1)
        = getSchedule schedules (scheduleKey s1 j1)) := by
  have hinj : scheduleKey s1 j1 = scheduleKey s2 j2 → s1 = s2 ∧ j1 = j2 := by
    intro hkey
    have hdata := congrArg String.data hkey
    rw [scheduleKey_data, scheduleKey_data] at hdata
    have hsplit : s1.data = s2.data ∧ j1.data = j2.data := by
      rcases hdash with ⟨h1, h2⟩ | ⟨h1, h2⟩
      · exact append_dash_inj_left h1 h2 hdata
      · exact append_dash_inj_right h1 h2 hdata
    exact ⟨String.ext hsplit.1, String.ext hsplit.2⟩
  refine ⟨hinj, ?_⟩
  intro hne schedules value
  exact getSchedule_setSchedule_of_ne schedules value (fun hkey => hne (hinj hkey.symm))

/-- C11, counterexample: the student id `a-b` with the subject id `c` and the
student id `a` with the subject id `b-c` are two different pairs with the same
key `a-b-c`. -/
theorem scheduleKey_collision :
    scheduleKey "a-b" "c" = scheduleKey "a" "b-c" ∧
    ¬ (("a-b" : String) = "a" ∧ ("c" : String) = "b-c") := by
  decide

/-- An instance of the amended C11: the two example students, whose ids hold
no `-`, get different keys for `math`, and writing the entry of the second
leaves the entry of the first. -/
theorem scheduleKey_injective_witness :
    ((NoDash "s1" ∧ NoDash "s2") ∨ (NoDash "math" ∧ NoDash "math")) ∧
    scheduleKey "s1" "math" ≠ scheduleKey "s2" "math" ∧
    ∀ (schedules : Schedules) (value : Assignment),
      getSchedule (setSchedule schedules (scheduleKey "s2" "math") value)
          (scheduleKey "s1" "math")
        = getSchedule schedules (scheduleKey "s1" "math") :=
  ⟨Or.inl ⟨by unfold NoDash; decide, by unfold NoDash; decide⟩,
   by decide,
   (scheduleKey_injective "s1" "s2" "math" "math"
      (Or.inl ⟨by unfold NoDash; decide, by unfold NoDash; decide⟩)).2 (by decide)⟩

end ScheduleAPI
